import Mathlib

/-!
Shallow embedding of the pisanix SQL sharding rewriter
(`src/pisa-proxy/proxy/strategy/src/sharding_rewrite/mod.rs`) and of the
MySQL transaction state machine
(`src/pisa-proxy/runtime/mysql/src/transaction_fsm.rs`).

Conventions used throughout:

* Machine integers are modelled as `Nat`/`Int`; wrapping casts are written
  with explicit `% 2 ^ 64` arithmetic.
* Rust panics (index out of bounds, `unwrap` on `None`, integer division by
  zero, a failed `try_into`) are modelled as `none` or `RunRes.panicked`;
  a Rust `Result::Err` is modelled as `RunRes.err`.
* SQL text is modelled as `String`; byte spans from the parser are treated as
  character positions, which agrees with the source for ASCII SQL (every
  concrete input evaluated below is ASCII).
* `f64` values are modelled as exact rationals; the IEEE-754 byte
  representation of a double, needed only by the `CRC32Mod` branch of the
  `f64` calculator, is kept as an opaque function parameter.
* Types defined in modules of this repository that are not part of the given
  sources (`meta.rs`, `generic_meta.rs`, `rewrite_const.rs`, the config and
  endpoint crates) are reconstructed from their uses in `mod.rs` and from the
  specification; such definitions carry a `Modelled from the spec:` note.
-/

/-- The backtick character (code point 96). -/
def btick : Char := Char.ofNat 96

/-- One-character string holding a backtick. -/
def btickS : String := String.singleton btick

/-- Models the Rust expression `s.replace("\x60", "")`: drop every backtick. -/
def stripTicks (s : String) : String := ⟨s.data.filter (fun c => c ≠ btick)⟩

/-- Models the Rust expression `s.contains("\x60")`. -/
def containsTick (s : String) : Bool := s.data.any (fun c => c = btick)

/-- Models the name normalisation in `find_table_rule`: strip backticks when
the raw table name contains one, otherwise keep the name as written. -/
def nameStripped (s : String) : String := if containsTick s then stripTicks s else s

/-- Models the Rust format specifier `{:05}` applied to a `u64`: the decimal
digits, left-padded with zeros to at least five characters. -/
def pad5 (n : Nat) : String :=
  let s := toString n
  ⟨List.replicate (5 - s.length) '0'⟩ ++ s

/-- Models `str::to_ascii_uppercase` (`Char.toUpper` only maps `a`-`z`). -/
def asciiUpper (s : String) : String := ⟨s.data.map Char.toUpper⟩

/-- The reflected CRC-32 (IEEE) polynomial used by the `crc32fast` crate. -/
def crc32Poly : Nat := 0xEDB88320

/-- One bit step of the reflected CRC-32 computation. -/
def crc32Step (c : Nat) : Nat := if c % 2 = 1 then Nat.xor (c / 2) crc32Poly else c / 2

/-- Fold one byte into a running CRC-32 state. -/
def crc32Byte (crc b : Nat) : Nat :=
  let c := Nat.xor crc b
  crc32Step (crc32Step (crc32Step (crc32Step (crc32Step (crc32Step (crc32Step (crc32Step c)))))))

/-- CRC-32 (IEEE, reflected) of a byte sequence, as computed by
`crc32fast::Hasher::new` / `update` / `finalize`. -/
def crc32 (bytes : List Nat) : Nat :=
  Nat.xor (bytes.foldl crc32Byte 0xFFFFFFFF) 0xFFFFFFFF

/-- Big-endian bytes of a `u64` (`u64::to_be_bytes`); values are reduced
modulo `2 ^ 64` by the digit extraction itself. -/
def u64BeBytes (v : Nat) : List Nat :=
  [v / 2 ^ 56 % 256, v / 2 ^ 48 % 256, v / 2 ^ 40 % 256, v / 2 ^ 32 % 256,
   v / 2 ^ 24 % 256, v / 2 ^ 16 % 256, v / 2 ^ 8 % 256, v % 256]

/-- The two sharding algorithms of `config::ShardingAlgorithmName`. -/
inductive ShardingAlgorithmName where
  | Mod
  | CRC32Mod
deriving DecidableEq

/-- Models `impl CalcShardingIdx<u64> for u64`.  `none` encodes a panic:
`wrapping_rem` by zero, or `sharding_count.try_into::<u32>().unwrap()` failing
for `CRC32Mod`.  The Rust function never produces `None` itself. -/
def u64Calc (v : Nat) (algo : ShardingAlgorithmName) (shardingCount : Nat) : Option Nat :=
  match algo with
  | .Mod => if shardingCount = 0 then none else some (v % 2 ^ 64 % shardingCount)
  | .CRC32Mod =>
    if 2 ^ 32 ≤ shardingCount then none
    else if shardingCount = 0 then none
    else some (crc32 (u64BeBytes v) % shardingCount)

/-- `u64 as i64`: reinterpret the low 64 bits as a signed value. -/
def u64AsI64 (n : Nat) : Int :=
  if n % 2 ^ 64 < 2 ^ 63 then ((n % 2 ^ 64 : Nat) : Int) else ((n % 2 ^ 64 : Nat) : Int) - 2 ^ 64

/-- `i64 as u64`: the two's-complement bits, i.e. the value modulo `2 ^ 64`. -/
def i64AsU64 (z : Int) : Nat := (z % (2 ^ 64)).toNat

/-- Models `impl CalcShardingIdx<i64> for i64`.  `i64::wrapping_rem` agrees
with the truncated remainder `Int.tmod` on every pair of in-range arguments
(including `i64::MIN.wrapping_rem(-1) = 0`); the final `as u64` keeps the
two's-complement bits.  `none` encodes a panic: remainder by zero, or a failed
`try_into::<u32>` for `CRC32Mod`. -/
def i64Calc (v : Int) (algo : ShardingAlgorithmName) (shardingCount : Int) : Option Nat :=
  match algo with
  | .Mod => if shardingCount = 0 then none else some (i64AsU64 (Int.tmod v shardingCount))
  | .CRC32Mod =>
    if shardingCount < 0 ∨ 2 ^ 32 ≤ shardingCount then none
    else if shardingCount = 0 then none
    else some (crc32 (u64BeBytes (i64AsU64 v)) % shardingCount.toNat)

/-- Truncation toward zero on rationals (the rounding of `fmod`). -/
def ratTrunc (q : ℚ) : Int := if 0 ≤ q then ⌊q⌋ else ⌈q⌉

/-- The IEEE `%` operator on doubles (`fmod`), which is exact: the truncated
remainder `v - n * trunc(v / n)`. -/
def fmodTrunc (v n : ℚ) : ℚ := v - n * ((ratTrunc (v / n) : Int) : ℚ)

/-- Rust `f64::round`: round half away from zero; exact on doubles. -/
def roundHalfAway (q : ℚ) : Int := if 0 ≤ q then ⌊q + 1 / 2⌋ else ⌈q - 1 / 2⌉

/-- The saturating Rust cast `f64 as u64` applied to an integral value. -/
def satCastU64 (z : Int) : Nat := if z < 0 then 0 else min z.toNat (2 ^ 64 - 1)

/-- Models the `Mod` branch of `impl CalcShardingIdx<f64> for f64`:
`Some((self % sharding_count).round() as u64)`.  Finite doubles are embedded
as exact rationals; `%` and `round` are exact on doubles and `as u64`
saturates.  For `n = 0` the Rust value is `(NaN).round() as u64 = 0`. -/
def f64CalcMod (v n : ℚ) : Nat :=
  if n = 0 then 0 else satCastU64 (roundHalfAway (fmodTrunc v n))

/-- Models `impl CalcShardingIdx<f64> for f64`, parameterised by the (opaque)
IEEE-754 big-endian byte encoding of doubles used by the `CRC32Mod` branch.
The Rust function wraps every result in `Some` and cannot panic. -/
def f64Calc (f64BeBytes : ℚ → List Nat) (v : ℚ) (algo : ShardingAlgorithmName) (n : ℚ) : Nat :=
  match algo with
  | .Mod => f64CalcMod v n
  | .CRC32Mod => f64CalcMod ((crc32 (f64BeBytes v) : Nat) : ℚ) n

/-- Digits-to-value helper for the integer parsers: `some` iff the character
list is one or more ASCII digits. -/
def digitsVal? (cs : List Char) : Option Nat :=
  match cs with
  | [] => none
  | _ =>
    if cs.all Char.isDigit then some (cs.foldl (fun a c => a * 10 + (c.toNat - 48)) 0) else none

/-- Models `str::parse::<u64>`: an optional `+` sign, one or more ASCII
digits, and a range check (overflow is a `ParseIntError` too). -/
def parseU64 (s : String) : Option Nat :=
  let cs := match s.data with
    | '+' :: rest => rest
    | cs => cs
  (digitsVal? cs).bind (fun v => if v < 2 ^ 64 then some v else none)

/-- Models `str::parse::<i64>`: an optional sign, one or more ASCII digits,
and the `i64` range check. -/
def parseI64 (s : String) : Option Int :=
  match s.data with
  | '-' :: rest => (digitsVal? rest).bind (fun v => if v ≤ 2 ^ 63 then some (-(v : Int)) else none)
  | '+' :: rest => (digitsVal? rest).bind (fun v => if v < 2 ^ 63 then some ((v : Int)) else none)
  | cs => (digitsVal? cs).bind (fun v => if v < 2 ^ 63 then some ((v : Int)) else none)

/-- Value of a digit list read as a decimal integer (no validity check). -/
def digitsNum (cs : List Char) : Nat := cs.foldl (fun a c => a * 10 + (c.toNat - 48)) 0

/-- Models `str::parse::<f64>` on the decimal fragment of its grammar:
optional sign, digits with an optional fraction part, and an optional decimal
exponent, evaluated exactly in `ℚ`.  The `inf`/`infinity`/`nan` spellings
accepted by Rust lie outside the rational model and are not represented;
overflow to infinity cannot occur in the fragment (`f64` parsing never fails
on range). -/
def parseF64Q (s : String) : Option ℚ :=
  let (neg, cs) := match s.data with
    | '-' :: rest => (true, rest)
    | '+' :: rest => (false, rest)
    | cs => (false, cs)
  let ip := cs.takeWhile Char.isDigit
  let rest1 := cs.dropWhile Char.isDigit
  let (fp, rest2) := match rest1 with
    | '.' :: r => (r.takeWhile Char.isDigit, r.dropWhile Char.isDigit)
    | _ => ([], rest1)
  if ip = [] ∧ fp = [] then none
  else
    let mant : ℚ := (digitsNum ip : ℚ) + (digitsNum fp : ℚ) / (10 : ℚ) ^ fp.length
    let signed : ℚ := if neg then -mant else mant
    match rest2 with
    | [] => some signed
    | 'e' :: r3 =>
      match (match r3 with
             | '-' :: r4 => (digitsVal? r4).map (fun e => -(e : Int))
             | '+' :: r4 => (digitsVal? r4).map (fun e => (e : Int))
             | r4 => (digitsVal? r4).map (fun e => (e : Int))) with
      | some e => some (signed * (10 : ℚ) ^ e)
      | none => none
    | 'E' :: r3 =>
      match (match r3 with
             | '-' :: r4 => (digitsVal? r4).map (fun e => -(e : Int))
             | '+' :: r4 => (digitsVal? r4).map (fun e => (e : Int))
             | r4 => (digitsVal? r4).map (fun e => (e : Int))) with
      | some e => some (signed * (10 : ℚ) ^ e)
      | none => none
    | _ => none

/-- Modelled from the spec: `endpoint::endpoint::Endpoint` (section 3,
"Endpoint"); field list as in the test configurations of `mod.rs`. -/
structure Endpoint where
  weight : Nat
  name : String
  db : String
  user : String
  password : String
  addr : String
deriving DecidableEq

/-- Modelled from the spec: a member of a node group (section 3, "Node
group"); only its `name` is consulted by `find_table_rule`. -/
structure NodeGroupMember where
  name : String
deriving DecidableEq

/-- Modelled from the spec: `config::NodeGroup`, the read-write-split node
group configuration; `find_table_rule` scans its `members`. -/
structure NodeGroup where
  members : List NodeGroupMember
deriving DecidableEq

/-- `config::DatabaseStrategyConfig` (fields as in the `mod.rs` tests). -/
structure DatabaseStrategyConfig where
  database_sharding_algorithm_name : ShardingAlgorithmName
  database_sharding_column : String
deriving DecidableEq

/-- `config::TableStrategyConfig` (fields as in the `mod.rs` tests). -/
structure TableStrategyConfig where
  table_sharding_algorithm_name : ShardingAlgorithmName
  table_sharding_column : String
  sharding_count : Nat
deriving DecidableEq

/-- `config::Sharding` — a sharding rule.  The `StrategyType` enum wrapper of
the source collapses to the strategy config itself, and the unused
`binding_tables` / `broadcast_tables` / `database_table_strategy` fields are
omitted. -/
structure Sharding where
  table_name : String
  actual_datanodes : List String
  database_strategy : Option DatabaseStrategyConfig
  table_strategy : Option TableStrategyConfig
deriving DecidableEq

/-- Modelled from the spec: `ShardingMeta::get_sharding_column` from the
missing `generic_meta.rs` — the pair (database-strategy column,
table-strategy column). -/
def Sharding.get_sharding_column (s : Sharding) : Option String × Option String :=
  (s.database_strategy.map (·.database_sharding_column),
   s.table_strategy.map (·.table_sharding_column))

/-- Modelled from the spec: `ShardingMeta::get_algo` from the missing
`generic_meta.rs` — the pair (database algorithm, table algorithm). -/
def Sharding.get_algo (s : Sharding) : Option ShardingAlgorithmName × Option ShardingAlgorithmName :=
  (s.database_strategy.map (·.database_sharding_algorithm_name),
   s.table_strategy.map (·.table_sharding_algorithm_name))

/-- Modelled from the spec: `ShardingMeta::get_sharding_count` from the
missing `generic_meta.rs`.  The table strategy carries an explicit
`sharding_count`; for the database strategy the shard count is the number of
actual datanodes (section 4.8 indexes `rule.actual_datanodes` with the shard
index, and the database test maps value 3 over 2 datanodes to node 1). -/
def Sharding.get_sharding_count (s : Sharding) : Option Nat × Option Nat :=
  (s.database_strategy.map (fun _ => s.actual_datanodes.length),
   s.table_strategy.map (·.sharding_count))

/-- `mysql_parser::Span`: a byte span into the original SQL. -/
structure Span where
  start : Nat
  len : Nat
deriving DecidableEq

/-- `Span::end`, i.e. `start + len` (`end` is a Lean keyword). -/
def Span.endPos (sp : Span) : Nat := sp.start + sp.len

/-- `mysql_parser::ast::TableIdent`: a table reference with its span, an
optional schema qualifier and the raw (possibly backtick-quoted) name. -/
structure TableIdent where
  span : Span
  schema : Option String
  name : String
deriving DecidableEq

/-- `meta::OrderDirection`. -/
inductive OrderDirection where
  | Asc
  | Desc
deriving DecidableEq

/-- Modelled from the spec: the literal type tags of `meta.rs`
(`WhereMetaRightDataType`); `Other` stands for the remaining variants, which
`parse_where` ignores. -/
inductive WhereMetaRightDataType where
  | Num (val : String)
  | SignedNum (val : String)
  | FloatNum (val : String)
  | Other
deriving DecidableEq

/-- Modelled from the spec: `meta::WhereMeta` — a WHERE equality predicate
with a column name on the left and a typed literal on the right (section 3,
"WHERE predicate"). -/
inductive WhereMeta where
  | BinaryExpr (left : String) (right : WhereMetaRightDataType)
deriving DecidableEq

/-- `meta::FieldWrapFunc`: the aggregation wrapper of a projection field. -/
inductive FieldWrapFunc where
  | Avg
  | Sum
  | Count
  | Min
  | Max
  | None
deriving DecidableEq

/-- `meta::FieldMetaIdent`: span, name and wrapper of a projection field. -/
structure FieldMetaIdent where
  span : Span
  name : String
  wrap_func : FieldWrapFunc
deriving DecidableEq

/-- Modelled from the spec: `meta::FieldMeta`; `TableWild` stands for the
non-`Ident` variants, which the rewriter treats as unreachable. -/
inductive FieldMeta where
  | Ident (f : FieldMetaIdent)
  | TableWild
deriving DecidableEq

/-- Modelled from the spec: `meta::AvgMeta` (span of the `AVG(col)` text, the
wrapped column name, and the full `AVG(col)` field name). -/
structure AvgMeta where
  span : Span
  field_name : String
  avg_field_name : String
deriving DecidableEq

/-- Modelled from the spec: `meta::OrderMeta` (ORDER BY item). -/
structure OrderMeta where
  span : Span
  name : String
  direction : OrderDirection
deriving DecidableEq

/-- Modelled from the spec: `meta::GroupMeta` (GROUP BY item). -/
structure GroupMeta where
  span : Span
  name : String
deriving DecidableEq

/-- Modelled from the spec: one literal inside an INSERT VALUES row. -/
structure InsertValue where
  value : String
deriving DecidableEq

/-- Modelled from the spec: `meta::InsertValsMeta` — the positional literals
of one VALUES row, and the span of the parenthesized row tuple. -/
structure InsertValsMeta where
  values : List InsertValue
  span : Span
deriving DecidableEq

/-- An `IndexMap<u8, Vec<α>>` is modelled as an insertion-ordered association
list with distinct keys. -/
def imGet {α : Type} (m : List (Nat × List α)) (k : Nat) : Option (List α) :=
  (m.find? (fun e => e.1 == k)).map (·.2)

/-- `IndexMap<String, String>::insert`: replace in place if present,
else append. -/
def imInsertStr (m : List (String × String)) (k v : String) : List (String × String) :=
  match m with
  | [] => [(k, v)]
  | e :: rest => if e.1 = k then (k, v) :: rest else e :: imInsertStr rest k v

/-- Modelled from the spec: the per-scope maps produced by the metadata
extractor (`meta::RewriteMetaData`, section 4.3); the extractor itself is an
external collaborator, so its output is an input of the model. -/
structure RewriteMetaData where
  tables : List (Nat × List TableIdent)
  wheres : List (Nat × List WhereMeta)
  inserts : List (Nat × List InsertValsMeta)
  fields : List (Nat × List FieldMeta)
  avgs : List (Nat × List AvgMeta)
  orders : List (Nat × List OrderMeta)
  groups : List (Nat × List GroupMeta)
deriving DecidableEq

/-- `ShardingRewriteError` from `mod.rs` (payloads of the parse errors are
dropped). -/
inductive ShardingRewriteError where
  | ShardingColumnNotFound (col : String)
  | ParseIntError
  | ParseFloatError
  | CalcModError
  | EndpointNotFound
  | FieldsIsEmpty
  | DatabaseNotFound
deriving DecidableEq

/-- Outcome of running a fallible piece of the rewriter: an Ok value, a
`ShardingRewriteError`, or a Rust panic. -/
inductive RunRes (α : Type) where
  | ok (a : α)
  | err (e : ShardingRewriteError)
  | panicked
deriving DecidableEq

/-- Sequencing for `RunRes` (errors and panics propagate). -/
def RunRes.bind {α β : Type} : RunRes α → (α → RunRes β) → RunRes β
  | .ok a, f => f a
  | .err e, _ => .err e
  | .panicked, _ => .panicked

instance : Monad RunRes where
  pure := RunRes.ok
  bind := RunRes.bind

/-- Lift a panic-only computation (`none` = panic) into `RunRes`. -/
def RunRes.ofPanic {α : Type} : Option α → RunRes α
  | some a => .ok a
  | none => .panicked

/-- `TransState` from `transaction_fsm.rs`. -/
inductive TransState where
  | TransDummyState
  | TransUseState
  | TransSetSessionState
  | TransStartState
  | TransPrepareState
deriving DecidableEq

/-- `TransEventName` from `transaction_fsm.rs`. -/
inductive TransEventName where
  | DummyEvent
  | UseEvent
  | SetSessionEvent
  | QueryEvent
  | StartEvent
  | PrepareEvent
  | SendLongDataEvent
  | ExecuteEvent
  | CloseEvent
  | ResetEvent
  | CommitRollBackEvent
  | DropEvent
deriving DecidableEq

/-- One row of the FSM transition table (`TransEvent`). -/
structure TransEvent where
  name : TransEventName
  src_state : TransState
  dst_state : TransState
deriving DecidableEq

/-- The transition table built by `init_trans_events`, row for row in source
order. -/
def init_trans_events : List TransEvent := [
  ⟨.UseEvent, .TransDummyState, .TransUseState⟩,
  ⟨.UseEvent, .TransUseState, .TransUseState⟩,
  ⟨.SetSessionEvent, .TransDummyState, .TransSetSessionState⟩,
  ⟨.SetSessionEvent, .TransUseState, .TransSetSessionState⟩,
  ⟨.SetSessionEvent, .TransSetSessionState, .TransSetSessionState⟩,
  ⟨.QueryEvent, .TransSetSessionState, .TransSetSessionState⟩,
  ⟨.QueryEvent, .TransUseState, .TransUseState⟩,
  ⟨.QueryEvent, .TransDummyState, .TransDummyState⟩,
  ⟨.StartEvent, .TransDummyState, .TransStartState⟩,
  ⟨.StartEvent, .TransUseState, .TransStartState⟩,
  ⟨.StartEvent, .TransSetSessionState, .TransStartState⟩,
  ⟨.PrepareEvent, .TransDummyState, .TransPrepareState⟩,
  ⟨.PrepareEvent, .TransUseState, .TransPrepareState⟩,
  ⟨.PrepareEvent, .TransStartState, .TransPrepareState⟩,
  ⟨.SendLongDataEvent, .TransPrepareState, .TransPrepareState⟩,
  ⟨.ExecuteEvent, .TransPrepareState, .TransPrepareState⟩,
  ⟨.CloseEvent, .TransPrepareState, .TransDummyState⟩,
  ⟨.ResetEvent, .TransPrepareState, .TransDummyState⟩,
  ⟨.DropEvent, .TransPrepareState, .TransDummyState⟩,
  ⟨.CommitRollBackEvent, .TransPrepareState, .TransDummyState⟩,
  ⟨.CommitRollBackEvent, .TransDummyState, .TransDummyState⟩,
  ⟨.CommitRollBackEvent, .TransStartState, .TransDummyState⟩,
  ⟨.QueryEvent, .TransSetSessionState, .TransDummyState⟩]

/-- The mutable FSM cursor: `current_state` and `current_event`. -/
structure FsmCore where
  current_state : TransState
  current_event : TransEventName
deriving DecidableEq

/-- The loop body of `TransFsm::trigger`: scan the transition table for the
first row matching (event name, current state); on a match move to its
destination, record the event, and return whether the source state was
`TransDummyState`; otherwise leave the cursor unchanged and return `false`. -/
def triggerAux (s : FsmCore) (stateName : TransEventName) :
    List TransEvent → FsmCore × Bool
  | [] => (s, false)
  | ev :: rest =>
    if ev.name = stateName ∧ ev.src_state = s.current_state then
      (⟨ev.dst_state, ev.name⟩, decide (ev.src_state = TransState.TransDummyState))
    else triggerAux s stateName rest

/-- `TransFsm::trigger` over the table built by `init_trans_events`. -/
def trigger (s : FsmCore) (stateName : TransEventName) : FsmCore × Bool :=
  triggerAux s stateName init_trans_events

/-- The connection-owning part of `TransFsm`, generic in the connection type
(`PoolConn<ClientConn>` is opaque to the model). -/
structure TransFsm (C : Type) where
  core : FsmCore
  client_conn : Option C
  shard_cache_conn : List C
  db : Option String
  charset : String
  autocommit : Option String

/-- `TransFsm::get_conn`: `self.client_conn.take()` then `unwrap()` — the
cached connection is moved out, and the absence of one is a panic (`none`). -/
def TransFsm.get_conn {C : Type} (s : TransFsm C) : Option (C × TransFsm C) :=
  match s.client_conn with
  | some c => some (c, { s with client_conn := none })
  | none => none

/-- `TransFsm::put_conn`: store the connection in the cache. -/
def TransFsm.put_conn {C : Type} (s : TransFsm C) (c : C) : TransFsm C :=
  { s with client_conn := some c }

/-- `TransFsm::get_shard_conn`: move the shard connection vector out. -/
def TransFsm.get_shard_conn {C : Type} (s : TransFsm C) : List C × TransFsm C :=
  (s.shard_cache_conn, { s with shard_cache_conn := [] })

/-- `TransFsm::put_shard_conn`. -/
def TransFsm.put_shard_conn {C : Type} (s : TransFsm C) (conns : List C) : TransFsm C :=
  { s with shard_cache_conn := conns }

/-- `String::remove` executed `len` times at the fixed position `pos`
(the loops of `change_sql`, `change_order_group` and `change_avg`);
`none` when a removal would index out of range (a Rust panic).  With
`len = 0` the loop body never runs, so no range check happens. -/
def removeAt (s : String) (pos len : Nat) : Option String :=
  if len = 0 then some s
  else if pos + len ≤ s.data.length then
    some ⟨s.data.take pos ++ s.data.drop (pos + len)⟩
  else none

/-- `String::insert_str`; `none` when the position is out of range. -/
def insertStrAt (s : String) (pos : Nat) (t : String) : Option String :=
  if pos ≤ s.data.length then some ⟨s.data.take pos ++ t.data ++ s.data.drop pos⟩ else none

/-- `ShardingRewrite::change_sql`: delete `span.len` characters at
`span.start + offset`, then insert the replacement there. -/
def change_sql (targetSql : String) (span : Span) (target : String) (offset : Nat) : Option String :=
  (removeAt targetSql (span.start + offset) span.len).bind
    (fun s => insertStrAt s (span.start + offset) target)

/-- `ShardingRewrite::change_table`, translated push by push.  The result is
`none` exactly when the reference has no schema and no default database is
set (`self.default_db.as_ref().unwrap()` panics). -/
def change_table (defaultDb : Option String) (table : TableIdent) (actualNode : String)
    (tableIdx : Nat) : Option String :=
  match (match table.schema with
         | some schema => some schema
         | none => defaultDb) with
  | none => none
  | some schema =>
    let target := ""
    if actualNode = "" then
      let target := target.push btick
      let target := target ++ schema
      let target := target.push btick
      let target := target.push '.'
      if containsTick table.name then
        let target := target.push btick
        let name := stripTicks table.name
        let target := target ++ (name ++ "_" ++ pad5 tableIdx)
        some (target.push btick)
      else
        some (target ++ (table.name ++ "_" ++ pad5 tableIdx))
    else
      let target :=
        if containsTick schema then ((target.push btick) ++ actualNode).push btick
        else target ++ actualNode
      let target := target ++ "."
      some (target ++ table.name)

/-- Rust `Iterator::find` on the shared `self.endpoints.iter()` iterator of
`find_table_rule`: scan the remaining endpoints, consuming every element up
to and including the first match; return the match and the remaining tail. -/
def iterFind (p : Endpoint → Bool) : List Endpoint → Option Endpoint × List Endpoint
  | [] => (none, [])
  | e :: rest => if p e then (some e, rest) else iterFind p rest

/-- The datanode scan of `find_table_rule` without read-write split:
`rule.actual_datanodes.iter().find(|x| endpoints.find(..).is_some())`,
threading the shared endpoints iterator through each inner search. -/
def hasDefaultDbScan (defaultDb : String) : List String → List Endpoint → Bool × List Endpoint
  | [], st => (false, st)
  | node :: rest, st =>
    match iterFind (fun ep => ep.name == node && defaultDb == ep.db) st with
    | (some _, st2) => (true, st2)
    | (none, st2) => hasDefaultDbScan defaultDb rest st2

/-- The datanode scan of `find_table_rule` with read-write split: a pure
search of the node-group members. -/
def hasDefaultDbRw (ng : NodeGroup) (nodes : List String) : Bool :=
  nodes.any (fun x => ng.members.any (fun g => g.name == x))

/-- The closure `find_table_rule` passes to `find_table`: look the reference
up in the rules, then decide reachability.  The closure captures the shared
endpoints iterator (threaded as `st`); the outer `Option` is the
`node_group_config.as_ref().unwrap()` panic. -/
def calcFn (rules : List Sharding) (defaultDb : Option String) (hasRw : Bool)
    (nodeGroupConfig : Option NodeGroup) (st : List Endpoint) (idx : Nat) (meta : TableIdent) :
    Option ((Nat × Option Sharding × Bool) × List Endpoint) :=
  match rules.find? (fun x => x.table_name == nameStripped meta.name) with
  | some rule =>
    match defaultDb with
    | some d =>
      if hasRw then
        match nodeGroupConfig with
        | none => none
        | some ng =>
          let hd := hasDefaultDbRw ng rule.actual_datanodes
          some (if meta.schema.isSome || hd then (idx, some rule, true) else (idx, none, false), st)
      else
        let scan := hasDefaultDbScan d rule.actual_datanodes st
        some (if meta.schema.isSome || scan.1 then (idx, some rule, true) else (idx, none, false),
              scan.2)
    | none =>
      some (if meta.schema.isSome then (idx, some rule, true) else (idx, none, false), st)
  | none => some ((idx, none, false), st)

/-- Inner loop of `ShardingRewrite::find_table` over the references of one
query scope; `none` is a panic (`res.1.unwrap()` on a `None` rule). -/
def findTableInner
    (f : List Endpoint → Nat → TableIdent → Option ((Nat × Option Sharding × Bool) × List Endpoint)) :
    List Endpoint → Nat → List TableIdent →
    Option (List (Nat × Sharding × TableIdent) × List Endpoint)
  | st, _, [] => some ([], st)
  | st, k, t :: ts =>
    match f st k t with
    | none => none
    | some ((i, orule, flag), st2) =>
      if flag then
        match orule with
        | none => none
        | some rule =>
          match findTableInner f st2 k ts with
          | none => none
          | some (rest, st3) => some ((i, rule, t) :: rest, st3)
      else findTableInner f st2 k ts

/-- `ShardingRewrite::find_table`: iterate the scope map and flatten the
per-scope candidate lists. -/
def findTableTop
    (f : List Endpoint → Nat → TableIdent → Option ((Nat × Option Sharding × Bool) × List Endpoint)) :
    List Endpoint → List (Nat × List TableIdent) →
    Option (List (Nat × Sharding × TableIdent) × List Endpoint)
  | st, [] => some ([], st)
  | st, (k, v) :: rest =>
    match findTableInner f st k v with
    | none => none
    | some (res1, st2) =>
      match findTableTop f st2 rest with
      | none => none
      | some (res2, st3) => some (res1 ++ res2, st3)

/-- `ShardingRewrite::find_table_rule`: the candidate (scope, rule, reference)
triples.  The endpoints iterator is created once and shared by every
reachability search; `none` is a panic. -/
def find_table_rule (rules : List Sharding) (eps : List Endpoint)
    (nodeGroupConfig : Option NodeGroup) (hasRw : Bool) (defaultDb : Option String)
    (tables : List (Nat × List TableIdent)) : Option (List (Nat × Sharding × TableIdent)) :=
  (findTableTop (calcFn rules defaultDb hasRw nodeGroupConfig) eps tables).map (·.1)

/-- The matching rule of the claims and of spec section 4.1, written from the
spec's words for comparison with `find_table_rule`: every reference is judged
independently, with a fresh search over the full endpoint list. -/
def find_table_rule_spec (rules : List Sharding) (eps : List Endpoint)
    (nodeGroupConfig : Option NodeGroup) (hasRw : Bool) (defaultDb : Option String)
    (tables : List (Nat × List TableIdent)) : List (Nat × Sharding × TableIdent) :=
  tables.flatMap (fun e =>
    e.2.filterMap (fun t =>
      match rules.find? (fun x => x.table_name == nameStripped t.name) with
      | none => none
      | some rule =>
        let reachable := t.schema.isSome ||
          (match defaultDb with
           | none => false
           | some d =>
             if hasRw then
               match nodeGroupConfig with
               | some ng => hasDefaultDbRw ng rule.actual_datanodes
               | none => false
             else rule.actual_datanodes.any
               (fun x => eps.any (fun ep => ep.name == x && ep.db == d)))
        if reachable then some (e.1, rule, t) else none))

namespace rewriteConst

/-- Modelled from the spec: the derived-name fragments of the missing
`rewrite_const.rs`, fixed by section 6 and the expected test outputs. -/
def AS : String := "AS"

/-- Aggregate keyword `COUNT`. -/
def COUNT : String := "COUNT"

/-- Aggregate keyword `SUM`. -/
def SUM : String := "SUM"

/-- Derived-name fragment for the AVG count column. -/
def AVG_DERIVED_COUNT : String := "AVG_DERIVED_COUNT"

/-- Derived-name fragment for the AVG sum column. -/
def AVG_DERIVED_SUM : String := "AVG_DERIVED_SUM"

/-- Derived-name fragment for ORDER BY aliases. -/
def ORDER_BY_DERIVED : String := "ORDER_BY_DERIVED"

/-- Derived-name fragment for GROUP BY aliases. -/
def GROUP_BY_DERIVED : String := "GROUP_BY_DERIVED"

/-- Modelled from the spec: internal map key (value only used as a key). -/
def ORDER_FIELD : String := "ORDER_FIELD"

/-- Modelled from the spec: internal map key (value only used as a key). -/
def ORDER_TARGET : String := "ORDER_TARGET"

/-- Modelled from the spec: internal map key (value only used as a key). -/
def GROUP_FIELD : String := "GROUP_FIELD"

/-- Modelled from the spec: internal map key (value only used as a key). -/
def GROUP_TARGET : String := "GROUP_TARGET"

/-- Modelled from the spec: internal map key (value only used as a key). -/
def AVG_FIELD : String := "AVG_FIELD"

/-- Modelled from the spec: internal map key (value only used as a key). -/
def AVG_COUNT : String := "AVG_COUNT"

/-- Modelled from the spec: internal map key (value only used as a key). -/
def AVG_SUM : String := "AVG_SUM"

end rewriteConst

/-- `StrategyTyp` from `mod.rs`. -/
inductive StrategyTyp where
  | Database
  | Table
deriving DecidableEq

/-- `ShardingRewrite::parse_where`: check the predicate's column, parse the
literal under its declared type, and run the calculator.  `.err` carries the
`?`-propagated parse errors; `.panicked` is a calculator panic.  The Rust
`Option<u64>` returned by `calc` is `Some` whenever `calc` returns at all, so
the trailing `Ok(None)` of the source is unreachable through it. -/
def parse_where (f64bits : ℚ → List Nat) (meta : WhereMeta) (algo : ShardingAlgorithmName)
    (shardingCount : Nat) (queryId : Nat) (shardingColumn : String) :
    RunRes (Option (Nat × Nat × WhereMeta)) :=
  match meta with
  | .BinaryExpr left right =>
    let leftStripped := stripTicks left
    if leftStripped ≠ shardingColumn then .ok none
    else
      match right with
      | .Num val =>
        match parseU64 val with
        | none => .err .ParseIntError
        | some v =>
          match u64Calc v algo shardingCount with
          | none => .panicked
          | some num => .ok (some (queryId, num, meta))
      | .SignedNum val =>
        match parseI64 val with
        | none => .err .ParseIntError
        | some v =>
          match i64Calc v algo (u64AsI64 shardingCount) with
          | none => .panicked
          | some num => .ok (some (queryId, num, meta))
      | .FloatNum val =>
        match parseF64Q val with
        | none => .err .ParseFloatError
        | some v => .ok (some (queryId, f64Calc f64bits v algo ((shardingCount : ℚ)), meta))
      | .Other => .ok none

/-- One scope of `ShardingRewrite::find_where`: the eager
`filter_map(..).collect::<Vec<_>>()` runs the calculation on every predicate
of the scope (so a later panic fires even after an earlier error), dropping
`Ok(None)` results; `none` is a panic. -/
def findWhereScan (calcf : Nat → WhereMeta → RunRes (Option (Nat × Nat × WhereMeta))) (k : Nat) :
    List WhereMeta → Option (List (Except ShardingRewriteError (Nat × Nat × WhereMeta)))
  | [] => some []
  | w :: ws =>
    match calcf k w with
    | .panicked => none
    | .err e => (findWhereScan calcf k ws).map (.error e :: ·)
    | .ok none => findWhereScan calcf k ws
    | .ok (some x) => (findWhereScan calcf k ws).map (.ok x :: ·)

/-- `collect::<Result<Vec<_>, _>>`: first error wins. -/
def collectExcept {E A : Type} : List (Except E A) → Except E (List A)
  | [] => .ok []
  | .error e :: _ => .error e
  | .ok a :: rest => (collectExcept rest).map (a :: ·)

/-- `ShardingRewrite::find_where`: process the scopes in order; each scope is
scanned eagerly, and the outer `collect::<Result<..>>` stops at the first
error, so later scopes are not evaluated after one. -/
def find_where (calcf : Nat → WhereMeta → RunRes (Option (Nat × Nat × WhereMeta))) :
    List (Nat × List WhereMeta) → RunRes (List (Nat × Nat × WhereMeta))
  | [] => .ok []
  | (k, v) :: rest =>
    match findWhereScan calcf k v with
    | none => .panicked
    | some items =>
      match collectExcept items with
      | .error e => .err e
      | .ok xs =>
        match find_where calcf rest with
        | .ok ys => .ok (xs ++ ys)
        | .err e => .err e
        | .panicked => .panicked

/-- `ShardingRewrite::find_try_where`: look up the scope's rule among the
candidate triples and run `parse_where` with that rule's column, algorithm
and shard count (each getter result is `unwrap`ped: a missing strategy is a
panic). -/
def find_try_where (f64bits : ℚ → List Nat) (strategyTyp : StrategyTyp)
    (tryTables : List (Nat × Sharding × TableIdent))
    (wheres : List (Nat × List WhereMeta)) : RunRes (List (Nat × Nat × WhereMeta)) :=
  find_where (fun queryId meta =>
    match tryTables.find? (fun x => x.1 == queryId) with
    | some rule =>
      match strategyTyp with
      | .Database =>
        match (Sharding.get_sharding_column rule.2.1).1, (Sharding.get_algo rule.2.1).1,
              (Sharding.get_sharding_count rule.2.1).1 with
        | some col, some algo, some cnt => parse_where f64bits meta algo cnt queryId col
        | _, _, _ => .panicked
      | .Table =>
        match (Sharding.get_sharding_column rule.2.1).2, (Sharding.get_algo rule.2.1).2,
              (Sharding.get_sharding_count rule.2.1).2 with
        | some col, some algo, some cnt => parse_where f64bits meta algo cnt queryId col
        | _, _, _ => .panicked
    | none => .ok none) wheres

/-- `DatabaseChange` from `mod.rs`. -/
structure DatabaseChange where
  span : Span
  target : String
  shard_idx : Nat
  rule : Sharding
deriving DecidableEq

/-- `RewriteChange` from `mod.rs`; the `AvgChange` / `OrderChange` /
`GroupChange` payload structs collapse into the constructor arguments (their
`IndexMap<String, String>` targets become ordered association lists). -/
inductive RewriteChange where
  | DatabaseChange (c : DatabaseChange)
  | AvgChange (target : List (String × String))
  | OrderChange (target : List (String × String)) (direction : OrderDirection)
  | GroupChange (target : List (String × String))
deriving DecidableEq

/-- `ShardingRewrite::get_database_change_plan`: for each candidate triple
with a computed predicate in its scope, render the replacement table text.
`nodeFn` models the `node_fn` closures (outer `Option` = panic inside the
closure; inner `Option` is its Rust return value, defaulted to `""` by
`unwrap_or_else`).  `none` is a panic (from `node_fn` or from
`change_table`). -/
def get_database_change_plan (defaultDb : Option String)
    (nodeFn : Sharding → Nat → Option (Option String)) :
    List (Nat × Sharding × TableIdent) → List (Nat × Nat) →
    Option (List (Nat × DatabaseChange))
  | [], _ => some []
  | x :: xs, wheres =>
    match wheres.find? (fun w => w.1 == x.1) with
    | some w =>
      match nodeFn x.2.1 w.2 with
      | none => none
      | some onode =>
        match change_table defaultDb x.2.2 (onode.getD "") w.2 with
        | none => none
        | some target =>
          (get_database_change_plan defaultDb nodeFn xs wheres).map
            ((x.1, ⟨x.2.2.span, target, w.2, x.2.1⟩) :: ·)
    | none => get_database_change_plan defaultDb nodeFn xs wheres

/-- The `node_fn` of `database_strategy`: index the rule's datanodes with the
shard index and find the endpoint of that node (`unwrap`: both failures are
panics); yields the endpoint's database name. -/
def nodeFnDatabase (eps : List Endpoint) (rule : Sharding) (shardIdx : Nat) :
    Option (Option String) :=
  match rule.actual_datanodes.get? shardIdx with
  | none => none
  | some node =>
    match eps.find? (fun x => x.name == node) with
    | none => none
    | some ep => some (some ep.db)

/-- The `node_fn` of `table_strategy`: always `None` (so the node defaults to
the empty string downstream). -/
def nodeFnTable (_rule : Sharding) (_shardIdx : Nat) : Option (Option String) :=
  some none

/-- `ShardingRewrite::database_change_apply`: apply the planned edits left to
right; the running `offset` is re-assigned (not accumulated) to
`target.len() - span.len()` after each edit, with `usize` subtraction modelled
as truncated `Nat` subtraction.  `none` is a panic in `change_sql`. -/
def database_change_apply (offset : Nat) (sql : String) :
    List (Nat × DatabaseChange) → Option (String × List (Nat × RewriteChange))
  | [] => some (sql, [])
  | (k, c) :: rest =>
    match change_sql sql c.span c.target offset with
    | none => none
    | some sql2 =>
      (database_change_apply (c.target.data.length - c.span.len) sql2 rest).map
        (fun r => (r.1, (k, .DatabaseChange c) :: r.2))

/-- `OrderChange` from `mod.rs` (target map as an ordered association list). -/
structure OrderChange where
  target : List (String × String)
  direction : OrderDirection
deriving DecidableEq

/-- `impl Default for OrderChange`. -/
def OrderChange.default : OrderChange := ⟨[], .Asc⟩

/-- `GroupChange` from `mod.rs`. -/
structure GroupChange where
  target : List (String × String)
deriving DecidableEq

/-- `impl Default for GroupChange`. -/
def GroupChange.default : GroupChange := ⟨[]⟩

/-- Outcome of the early-return scan in `change_order_group`: an ORDER BY or
GROUP BY item that already occurs in the scope-1 projection. -/
inductive CogEarly where
  | orderHit (o : OrderMeta)
  | groupHit (g : GroupMeta)
deriving DecidableEq

/-- The projection names of a scope, with the `unreachable!` panic (`none`)
on any non-`Ident` field. -/
def fieldNames : List FieldMeta → Option (List String)
  | [] => some []
  | .Ident f :: rest => (fieldNames rest).map (f.name :: ·)
  | .TableWild :: _ => none

/-- The early-return scan of `change_order_group`: walk the projection names;
for each, search `orders[query_id]` then `groups[query_id]` for a
(backtick-stripped) name match.  The per-iteration `orders[query_id]` /
`groups[query_id]` key lookups panic (`none`) when the key is absent, in the
same lazy order as the source. -/
def cogScan (ordersM : List (Nat × List OrderMeta)) (groupsM : List (Nat × List GroupMeta))
    (qid : Nat) : List String → Option (Option CogEarly)
  | [] => some none
  | f :: fs =>
    match (if ordersM.isEmpty then some none
           else match imGet ordersM qid with
                | none => none
                | some rows => some (rows.find? (fun o => stripTicks f == stripTicks o.name))) with
    | none => none
    | some (some o) => some (some (.orderHit o))
    | some none =>
      match (if groupsM.isEmpty then some none
             else match imGet groupsM qid with
                  | none => none
                  | some rows => some (rows.find? (fun g => stripTicks f == stripTicks g.name))) with
      | none => none
      | some (some g) => some (some (.groupHit g))
      | some none => cogScan ordersM groupsM qid fs

/-- The `field_meta.find(..)` search of the derived-alias loops, with the
`unreachable!` panic (`none`) if a non-`Ident` field is scanned before a
match; the comparison is exact (no backtick stripping). -/
def findFieldExact (nm : String) : List FieldMeta → Option (Option FieldMetaIdent)
  | [] => some none
  | .Ident f :: rest => if f.name = nm then some (some f) else findFieldExact nm rest
  | .TableWild :: _ => none

/-- The per-order body of the ORDER BY derived-alias loop of
`change_order_group`: for each order item absent from the fields of the
current entry, insert the rebuilt projection list at the (fixed) first-field
position and record the derived alias. -/
def cogOrderRows (oriField : String) (insPos idx : Nat) (fmeta : List FieldMeta) :
    List OrderMeta → String → OrderChange → Option (String × OrderChange)
  | [], sql, oc => some (sql, oc)
  | o :: os, sql, oc =>
    match findFieldExact o.name fmeta with
    | none => none
    | some (some _) => cogOrderRows oriField insPos idx fmeta os sql oc
    | some none =>
      let targetAs :=
        if containsTick o.name then
          asciiUpper (stripTicks o.name) ++ "_" ++ rewriteConst.ORDER_BY_DERIVED ++ "_" ++ pad5 idx
        else asciiUpper o.name ++ "_" ++ rewriteConst.ORDER_BY_DERIVED ++ "_" ++ pad5 idx
      let target := (oriField ++ o.name ++ " " ++ rewriteConst.AS ++ " ") ++ targetAs
      match insertStrAt sql insPos target with
      | none => none
      | some sql2 =>
        cogOrderRows oriField insPos idx fmeta os sql2
          ⟨imInsertStr (imInsertStr oc.target rewriteConst.ORDER_TARGET targetAs)
             rewriteConst.ORDER_FIELD o.name, o.direction⟩

/-- The outer ORDER BY derived-alias loop: every `fields` entry whose scope id
has order metadata contributes through `cogOrderRows`. -/
def cogOrderEntries (oriField : String) (insPos idx : Nat)
    (ordersM : List (Nat × List OrderMeta)) :
    List (Nat × List FieldMeta) → String → OrderChange → Option (String × OrderChange)
  | [], sql, oc => some (sql, oc)
  | (fqid, fmeta) :: rest, sql, oc =>
    match imGet ordersM fqid with
    | none => cogOrderEntries oriField insPos idx ordersM rest sql oc
    | some rows =>
      match cogOrderRows oriField insPos idx fmeta rows sql oc with
      | none => none
      | some (sql2, oc2) => cogOrderEntries oriField insPos idx ordersM rest sql2 oc2

/-- The per-group body of the GROUP BY derived-alias loop (mirror of
`cogOrderRows` with the `GROUP_BY_DERIVED` suffix and no direction). -/
def cogGroupRows (oriField : String) (insPos idx : Nat) (fmeta : List FieldMeta) :
    List GroupMeta → String → GroupChange → Option (String × GroupChange)
  | [], sql, gc => some (sql, gc)
  | g :: gs, sql, gc =>
    match findFieldExact g.name fmeta with
    | none => none
    | some (some _) => cogGroupRows oriField insPos idx fmeta gs sql gc
    | some none =>
      let targetAs :=
        if containsTick g.name then
          asciiUpper (stripTicks g.name) ++ "_" ++ rewriteConst.GROUP_BY_DERIVED ++ "_" ++ pad5 idx
        else asciiUpper g.name ++ "_" ++ rewriteConst.GROUP_BY_DERIVED ++ "_" ++ pad5 idx
      let target := (oriField ++ g.name ++ " " ++ rewriteConst.AS ++ " ") ++ targetAs
      match insertStrAt sql insPos target with
      | none => none
      | some sql2 =>
        cogGroupRows oriField insPos idx fmeta gs sql2
          ⟨imInsertStr (imInsertStr gc.target rewriteConst.GROUP_TARGET targetAs)
             rewriteConst.GROUP_FIELD g.name⟩

/-- The outer GROUP BY derived-alias loop. -/
def cogGroupEntries (oriField : String) (insPos idx : Nat)
    (groupsM : List (Nat × List GroupMeta)) :
    List (Nat × List FieldMeta) → String → GroupChange → Option (String × GroupChange)
  | [], sql, gc => some (sql, gc)
  | (fqid, fmeta) :: rest, sql, gc =>
    match imGet groupsM fqid with
    | none => cogGroupEntries oriField insPos idx groupsM rest sql gc
    | some rows =>
      match cogGroupRows oriField insPos idx fmeta rows sql gc with
      | none => none
      | some (sql2, gc2) => cogGroupEntries oriField insPos idx groupsM rest sql2 gc2

/-- The body of `change_order_group` for one `fields` entry of scope 1, and
the iteration over the remaining entries; `fieldsAll` is the whole fields map
re-walked by the derived-alias loops.  `none` is a panic (empty projection
indexing, non-`Ident` fields, missing order/group keys, or an out-of-range
string edit). -/
def cogEntries (ordersM : List (Nat × List OrderMeta)) (groupsM : List (Nat × List GroupMeta))
    (fieldsAll : List (Nat × List FieldMeta)) (idx : Nat) :
    List (Nat × List FieldMeta) → String → OrderChange → GroupChange →
    Option (String × OrderChange × GroupChange)
  | [], sql, oc, gc => some (sql, oc, gc)
  | (qid, field) :: rest, sql, oc, gc =>
    if qid = 1 then
      match field.getLast?, field.head? with
      | some (.Ident lf), some (.Ident ff) =>
        let len := lf.span.start + lf.span.len - ff.span.start
        match fieldNames field with
        | none => none
        | some names =>
          let oriField := String.join (names.map (fun n => n ++ ", "))
          match cogScan ordersM groupsM qid names with
          | none => none
          | some (some (.orderHit o)) =>
            some (sql,
              ⟨imInsertStr (imInsertStr oc.target rewriteConst.ORDER_FIELD o.name)
                 rewriteConst.ORDER_TARGET "", o.direction⟩, gc)
          | some (some (.groupHit g)) =>
            some (sql, oc,
              ⟨imInsertStr (imInsertStr gc.target rewriteConst.GROUP_FIELD g.name)
                 rewriteConst.GROUP_TARGET ""⟩)
          | some none =>
            match (if ordersM.isEmpty = false ∨ groupsM.isEmpty = false then
                     removeAt sql ff.span.start len
                   else some sql) with
            | none => none
            | some sqlA =>
              match (if ordersM.isEmpty = false then
                       cogOrderEntries oriField ff.span.start idx ordersM fieldsAll sqlA oc
                     else some (sqlA, oc)) with
              | none => none
              | some (sqlB, oc2) =>
                match (if groupsM.isEmpty = false then
                         cogGroupEntries oriField ff.span.start idx groupsM fieldsAll sqlB gc
                       else some (sqlB, gc)) with
                | none => none
                | some (sqlC, gc2) =>
                  cogEntries ordersM groupsM fieldsAll idx rest sqlC oc2 gc2
      | _, _ => none
    else cogEntries ordersM groupsM fieldsAll idx rest sql oc gc

/-- `ShardingRewrite::change_order_group`. -/
def change_order_group (sql : String) (ordersM : List (Nat × List OrderMeta))
    (groupsM : List (Nat × List GroupMeta)) (fieldsM : List (Nat × List FieldMeta))
    (idx : Nat) : Option (String × OrderChange × GroupChange) :=
  cogEntries ordersM groupsM fieldsM idx fieldsM sql OrderChange.default GroupChange.default

/-- The per-meta body of `change_avg`: extend the accumulated replacement
text and the result map for one `AVG(col)` field. -/
def avgMetas (lastSpan : Span) (idx : Nat) :
    List AvgMeta → String → List (String × String) → String × List (String × String)
  | [], target, res => (target, res)
  | m :: ms, target, res =>
    let res := imInsertStr res rewriteConst.AVG_FIELD m.avg_field_name
    let targetCount := rewriteConst.COUNT ++ "(" ++ m.field_name ++ ") " ++ rewriteConst.AS ++ " "
    let countAs := asciiUpper m.field_name ++ "_" ++ rewriteConst.AVG_DERIVED_COUNT ++ "_" ++ pad5 idx
    let res := imInsertStr res rewriteConst.AVG_COUNT countAs
    let targetSum := rewriteConst.SUM ++ "(" ++ m.field_name ++ ") " ++ rewriteConst.AS ++ " "
    let sumAs := asciiUpper m.field_name ++ "_" ++ rewriteConst.AVG_DERIVED_SUM ++ "_" ++ pad5 idx
    let res := imInsertStr res rewriteConst.AVG_SUM sumAs
    let target := target ++ (targetCount ++ countAs ++ ", " ++ targetSum ++ sumAs)
    let target := if m.span ≠ lastSpan then target ++ ", " else target
    avgMetas lastSpan idx ms target res

/-- The entries loop of `change_avg`; the replacement text accumulator is
declared outside the loop in the source and therefore carries over between
entries.  `none` is a panic (empty entry vector or out-of-range edit). -/
def avgEntries (idx offset : Nat) :
    List (Nat × List AvgMeta) → String → String → List (String × String) →
    Option (String × List (String × String))
  | [], sql, _target, res => some (sql, res)
  | (_, avg) :: rest, sql, target, res =>
    match avg.getLast?, avg.head? with
    | some lastM, some firstM =>
      let len := lastM.span.start + lastM.span.len - firstM.span.start
      match removeAt sql (firstM.span.start + offset) len with
      | none => none
      | some sql2 =>
        let tr := avgMetas lastM.span idx avg target res
        match insertStrAt sql2 (firstM.span.start + offset) tr.1 with
        | none => none
        | some sql3 => avgEntries idx offset rest sql3 tr.1 tr.2
    | _, _ => none

/-- `ShardingRewrite::change_avg`. -/
def change_avg (sql : String) (avgsM : List (Nat × List AvgMeta)) (idx offset : Nat) :
    Option (String × List (String × String)) :=
  avgEntries idx offset avgsM sql "" []

/-- `ShardingRewrite::find_min_max_fields`: the MIN/MAX-wrapped projection
fields of a scope. -/
def find_min_max_fields (idx : Nat) (fieldsM : List (Nat × List FieldMeta)) :
    List FieldMetaIdent :=
  match imGet fieldsM idx with
  | some fields =>
    fields.filterMap (fun f =>
      match f with
      | .Ident fd =>
        match fd.wrap_func with
        | .Min => some fd
        | .Max => some fd
        | _ => none
      | .TableWild => none)
  | none => []

/-- `DataSource` from `mod.rs`. -/
inductive DataSource where
  | Endpoint (e : Endpoint)
  | NodeGroup (name : String)
  | None
deriving DecidableEq

/-- `ShardingRewriteOutput` from `mod.rs`. -/
structure ShardingRewriteOutput where
  changes : List RewriteChange
  target_sql : String
  data_source : DataSource
  sharding_column : Option String
  min_max_fields : List FieldMetaIdent
deriving DecidableEq

/-- The rewriter state `ShardingRewrite` (configuration plus the per-call
`raw_sql` / `default_db`). -/
structure ShardingRewrite where
  rules : List Sharding
  raw_sql : String
  endpoints : List Endpoint
  has_rw : Bool
  node_group_config : Option NodeGroup
  default_db : Option String

/-- `ChangeInsertMeta` from `mod.rs`. -/
structure ChangeInsertMeta where
  row_sharding_value : String
  row_value_span : Span
deriving DecidableEq

/-- The `find_map` of `find_inserts`: position, span and name of the first
`Ident` field equal to the sharding column (exact comparison); `enumerate`
counts every field. -/
def findShardingFieldAux (col : String) : Nat → List FieldMeta → Option (Nat × Span × String)
  | _, [] => none
  | i, .Ident f :: rest =>
    if f.name = col then some (i, f.span, f.name) else findShardingFieldAux col (i + 1) rest
  | i, .TableWild :: rest => findShardingFieldAux col (i + 1) rest

/-- The row extraction of `find_inserts`: `insert.values[pos].value` for each
row, with the index panic (`none`) when a row is too short. -/
def findInsertRows (pos : Nat) : List InsertValsMeta → Option (List ChangeInsertMeta)
  | [] => some []
  | ins :: rest =>
    match ins.values.get? pos with
    | none => none
    | some v => (findInsertRows pos rest).map (⟨v.value, ins.span⟩ :: ·)

/-- `ShardingRewrite::find_inserts`. -/
def find_inserts (inserts : List InsertValsMeta) (fields : List FieldMeta)
    (shardingColumn : String) : RunRes (List ChangeInsertMeta) :=
  match findShardingFieldAux shardingColumn 0 fields with
  | none => .err (.ShardingColumnNotFound shardingColumn)
  | some (pos, _, _) =>
    match findInsertRows pos inserts with
    | none => .panicked
    | some rows => .ok rows

/-- The calculation loop of `change_insert`: parse each row's sharding
literal as `u64` and run the calculator.  The Rust `ok_or(CalcModError)`
never fires because `calc` never returns `None`; the `Option` of the model's
`u64Calc` is its panic. -/
def changeInsertRows (algo : ShardingAlgorithmName) (cnt : Nat) :
    List ChangeInsertMeta → RunRes (List (Nat × Span))
  | [] => .ok []
  | r :: rs =>
    match parseU64 r.row_sharding_value with
    | none => .err .ParseIntError
    | some v =>
      match u64Calc v algo cnt with
      | none => .panicked
      | some k =>
        match changeInsertRows algo cnt rs with
        | .ok xs => .ok ((k, r.row_value_span) :: xs)
        | .err e => .err e
        | .panicked => .panicked

/-- `ShardingRewrite::change_insert`: one (shard index, row span) pair per
VALUES row. -/
def change_insert (inserts : List InsertValsMeta) (fields : List FieldMeta)
    (shardingColumn : String) (algo : ShardingAlgorithmName) (shardingCount : Nat) :
    RunRes (List (Nat × Span)) :=
  (find_inserts inserts fields shardingColumn).bind (changeInsertRows algo shardingCount)

/-- One step of the `change_rows` accumulation of `change_insert_sql_inner`
at the level of row spans: `entry(shard).or_insert(..).push(span)` — append
to the shard's group if present, else open a new group at the end. -/
def addRow (gs : List (Nat × List Span)) (k : Nat) (s : Span) : List (Nat × List Span) :=
  match gs with
  | [] => [(k, [s])]
  | g :: rest => if g.1 = k then (g.1, g.2 ++ [s]) :: rest else g :: addRow rest k s

/-- The `change_rows` loop of `change_insert_sql_inner` abstracted to row
spans: group the computed (shard, row span) pairs by shard, keys in
first-appearance order, rows in iteration order.  `changeRowsStrAux` below is
the string-level version actually used by the rewriter; the two are related
by theorem `insert_partition` (claim C4). -/
def insertGroupRowsAux (acc : List (Nat × List Span)) : List (Nat × Span) → List (Nat × List Span)
  | [] => acc
  | c :: cs => insertGroupRowsAux (addRow acc c.1 c.2) cs

/-- Span-level row grouping of an INSERT rewrite (see `insertGroupRowsAux`). -/
def insertGroupRows (cs : List (Nat × Span)) : List (Nat × List Span) :=
  insertGroupRowsAux [] cs

/-- `IndexMap::entry(k).or_insert(init).push_str(txt)` on string values. -/
def imAppendStr (m : List (Nat × String)) (k : Nat) (init txt : String) : List (Nat × String) :=
  match m with
  | [] => [(k, init ++ txt)]
  | e :: rest => if e.1 = k then (e.1, e.2 ++ txt) :: rest else e :: imAppendStr rest k init txt

/-- Rust string slicing `s[a..b]`; `none` when the range is invalid (a
panic). -/
def strSlice (s : String) (a b : Nat) : Option String :=
  if a ≤ b ∧ b ≤ s.data.length then some ⟨(s.data.drop a).take (b - a)⟩ else none

/-- Drop every trailing `", "` (reversed-list worker for
`trim_end_matches(", ")`). -/
def dropCSrev : List Char → List Char
  | ' ' :: ',' :: rest => dropCSrev rest
  | l => l

/-- Rust `trim_end_matches(", ")`: remove repeated trailing `", "`. -/
def trimEndCommaSpace (s : String) : String := ⟨(dropCSrev s.data.reverse).reverse⟩

/-- The string-level `change_rows` loop of `change_insert_sql_inner`: per
change, render the sharded table into a copy of the row prefix (table
strategy), remember the shard index (database strategy), slice the row text
out of the raw SQL and append it (plus `", "`) to the shard's entry.  The
final `Nat` is the source's `idx` variable (last database-strategy shard).
`none` is a panic (in `change_table`, `change_sql` or the slice). -/
def changeRowsStrAux (defaultDb : Option String) (rule : Sharding) (table : TableIdent)
    (rawSql rowPrefixText : String) :
    List (Nat × Span) → List (Nat × String) → Nat → Option (List (Nat × String) × Nat)
  | [], acc, idx => some (acc, idx)
  | c :: cs, acc, idx =>
    match change_table defaultDb table "" c.1 with
    | none => none
    | some targetTable =>
      match (if rule.table_strategy.isSome then change_sql rowPrefixText table.span targetTable 0
             else some rowPrefixText) with
      | none => none
      | some prefixText =>
        let idx2 := if rule.table_strategy.isSome then idx
                    else if rule.database_strategy.isSome then c.1 else idx
        match strSlice rawSql c.2.start c.2.endPos with
        | none => none
        | some rowText =>
          changeRowsStrAux defaultDb rule table rawSql rowPrefixText cs
            (imAppendStr acc c.1 prefixText (rowText ++ ", ")) idx2

/-- `ShardingRewrite::change_insert_sql_inner`. -/
def change_insert_sql_inner (ctx : ShardingRewrite) (rule : Sharding) (table : TableIdent)
    (inserts : List InsertValsMeta) (fields : List FieldMeta) (shardingColumn : String)
    (algo : ShardingAlgorithmName) (shardingCount : Nat) :
    RunRes (List ShardingRewriteOutput) :=
  (change_insert inserts fields shardingColumn algo shardingCount).bind (fun changes =>
    match changes.head? with
    | none => .panicked
    | some c0 =>
      match strSlice ctx.raw_sql 0 c0.2.start with
      | none => .panicked
      | some rowPrefixText =>
        match changeRowsStrAux ctx.default_db rule table ctx.raw_sql rowPrefixText changes [] 0 with
        | none => .panicked
        | some (changeRows, idx) =>
          (if ctx.has_rw then
             match rule.actual_datanodes.head? with
             | none => RunRes.panicked
             | some n => .ok (DataSource.NodeGroup n)
           else if rule.table_strategy.isSome then
             match rule.actual_datanodes.head? with
             | none => RunRes.panicked
             | some n0 =>
               match ctx.endpoints.find? (fun e => e.name == n0) with
               | none => .err .EndpointNotFound
               | some ep => .ok (DataSource.Endpoint ep)
           else if rule.database_strategy.isSome then
             match ctx.endpoints.get? idx with
             | none => RunRes.panicked
             | some ep => .ok (DataSource.Endpoint ep)
           else RunRes.panicked).bind (fun dataSource =>
            .ok (changeRows.map (fun kv =>
              ⟨[], trimEndCommaSpace kv.2, dataSource, some shardingColumn, []⟩))))

/-- The per-candidate loop of `change_insert_sql`: pick the strategy's
getters (`unwrap`ped; a rule with neither strategy is the `unreachable!`
panic), fetch the scope's inserts and fields (`unwrap`: missing scope is a
panic) and run `change_insert_sql_inner`. -/
def changeInsertTables (ctx : ShardingRewrite) (fieldsM : List (Nat × List FieldMeta))
    (insertsM : List (Nat × List InsertValsMeta)) :
    List (Nat × Sharding × TableIdent) → RunRes (List (List ShardingRewriteOutput))
  | [] => .ok []
  | (qid, rule, table) :: rest =>
    (if rule.table_strategy.isSome then
       match (Sharding.get_sharding_count rule).2, (Sharding.get_sharding_column rule).2,
             (Sharding.get_algo rule).2 with
       | some cnt, some col, some algo => RunRes.ok (cnt, col, algo)
       | _, _, _ => .panicked
     else if rule.database_strategy.isSome then
       match (Sharding.get_sharding_count rule).1, (Sharding.get_sharding_column rule).1,
             (Sharding.get_algo rule).1 with
       | some cnt, some col, some algo => RunRes.ok (cnt, col, algo)
       | _, _, _ => .panicked
     else RunRes.panicked).bind (fun strat =>
      match imGet insertsM qid, imGet fieldsM qid with
      | some ins, some flds =>
        (change_insert_sql_inner ctx rule table ins flds strat.2.1 strat.2.2 strat.1).bind
          (fun outs =>
            match changeInsertTables ctx fieldsM insertsM rest with
            | .ok rs => .ok (outs :: rs)
            | .err e => .err e
            | .panicked => .panicked)
      | _, _ => .panicked)

/-- `ShardingRewrite::change_insert_sql`: run the per-candidate loop and
flatten. -/
def change_insert_sql (ctx : ShardingRewrite) (tryTables : List (Nat × Sharding × TableIdent))
    (fieldsM : List (Nat × List FieldMeta)) (insertsM : List (Nat × List InsertValsMeta)) :
    RunRes (List ShardingRewriteOutput) :=
  match changeInsertTables ctx fieldsM insertsM tryTables with
  | .ok xs => .ok xs.flatten
  | .err e => .err e
  | .panicked => .panicked

/-- `group_changes.entry(idx).or_insert((qid, vec![])).1.push(change)`: the
shard-indexed change groups of the iproduct (broadcast) paths. -/
def imPushChange (m : List (Nat × Nat × List DatabaseChange)) (k qid : Nat) (c : DatabaseChange) :
    List (Nat × Nat × List DatabaseChange) :=
  match m with
  | [] => [(k, qid, [c])]
  | e :: rest => if e.1 = k then (e.1, e.2.1, e.2.2 ++ [c]) :: rest else e :: imPushChange rest k qid c

/-- The edit loop shared by the iproduct paths: apply each change through
`change_sql`, re-assigning the offset to the last edit's length delta
(truncated `usize` subtraction); returns the final SQL and offset. -/
def applyChanges : Nat → String → List DatabaseChange → Option (String × Nat)
  | offset, sql, [] => some (sql, offset)
  | offset, sql, c :: cs =>
    match change_sql sql c.span c.target offset with
    | none => none
    | some sql2 => applyChanges (c.target.data.length - c.span.len) sql2 cs

/-- The datanode loop of `database_strategy_iproduct`: for every datanode (in
order, with its position as shard index) find its endpoint (`unwrap`), render
the node-qualified table and push the change into that shard's group. -/
def dbNodesLoop (ctx : ShardingRewrite) (t : Nat × Sharding × TableIdent) :
    Nat → List String → List (Nat × Nat × List DatabaseChange) →
    Option (List (Nat × Nat × List DatabaseChange))
  | _, [], gcs => some gcs
  | i, node :: rest, gcs =>
    match ctx.endpoints.find? (fun e => e.name == node) with
    | none => none
    | some ep =>
      match change_table ctx.default_db t.2.2 ep.db 0 with
      | none => none
      | some target =>
        dbNodesLoop ctx t (i + 1) rest (imPushChange gcs i t.1 ⟨t.2.2.span, target, i, t.2.1⟩)

/-- The table loop of `database_strategy_iproduct`: record the (last) rule's
sharding column (`database_strategy.unwrap()` panics when absent) and run the
datanode loop. -/
def dbIproductBuild (ctx : ShardingRewrite) :
    List (Nat × Sharding × TableIdent) → Option String →
    List (Nat × Nat × List DatabaseChange) →
    Option (Option String × List (Nat × Nat × List DatabaseChange))
  | [], shCol, gcs => some (shCol, gcs)
  | t :: ts, _shCol, gcs =>
    match t.2.1.database_strategy with
    | none => none
    | some config =>
      match dbNodesLoop ctx t 0 t.2.1.actual_datanodes gcs with
      | none => none
      | some gcs2 => dbIproductBuild ctx ts (some config.database_sharding_column) gcs2

/-- The output loop shared by both iproduct paths: per shard group, resolve
the data source (`dsOf`; `none` is the path's panic), apply the edits to a
fresh copy of the raw SQL, collect MIN/MAX fields, run the ORDER/GROUP
augmentation with the group's first shard index, and apply the AVG rewrite —
resetting the offset to zero when the first AVG span precedes the first table
span. -/
def iproductOutputs (ctx : ShardingRewrite) (avgsM : List (Nat × List AvgMeta))
    (fieldsM : List (Nat × List FieldMeta)) (ordersM : List (Nat × List OrderMeta))
    (groupsM : List (Nat × List GroupMeta)) (dsOf : Nat → Option DataSource)
    (shCol : Option String) :
    List (Nat × Nat × List DatabaseChange) → Option (List ShardingRewriteOutput)
  | [] => some []
  | (group, qid, changes) :: rest =>
    match dsOf group with
    | none => none
    | some ds =>
      match applyChanges 0 ctx.raw_sql changes with
      | none => none
      | some (sqlA, offsetA) =>
        let minMax := find_min_max_fields qid fieldsM
        match changes.head? with
        | none => none
        | some c0 =>
          match change_order_group sqlA ordersM groupsM fieldsM c0.shard_idx with
          | none => none
          | some (sqlB, oc, gc) =>
            let rcs := changes.map RewriteChange.DatabaseChange
            let rcs := if oc.target.isEmpty = false then
                rcs ++ [RewriteChange.OrderChange oc.target oc.direction] else rcs
            let rcs := if gc.target.isEmpty = false then
                rcs ++ [RewriteChange.GroupChange gc.target] else rcs
            if avgsM.isEmpty = false then
              match avgsM.head? with
              | none => none
              | some firstEntry =>
                match firstEntry.2.head? with
                | none => none
                | some a0 =>
                  let offsetB := if a0.span.start < c0.span.start then 0 else offsetA
                  match change_avg sqlB avgsM c0.shard_idx offsetB with
                  | none => none
                  | some (sqlC, avgTarget) =>
                    match iproductOutputs ctx avgsM fieldsM ordersM groupsM dsOf shCol rest with
                    | none => none
                    | some outs =>
                      some (⟨rcs ++ [.AvgChange avgTarget], sqlC, ds, shCol, minMax⟩ :: outs)
            else
              match iproductOutputs ctx avgsM fieldsM ordersM groupsM dsOf shCol rest with
              | none => none
              | some outs => some (⟨rcs, sqlB, ds, shCol, minMax⟩ :: outs)

/-- `ShardingRewrite::database_strategy_iproduct` (broadcast over the
datanodes); each shard group's data source is `self.endpoints[group]`
(an index, hence a possible panic). -/
def database_strategy_iproduct (ctx : ShardingRewrite)
    (tables : List (Nat × Sharding × TableIdent)) (avgsM : List (Nat × List AvgMeta))
    (fieldsM : List (Nat × List FieldMeta)) (ordersM : List (Nat × List OrderMeta))
    (groupsM : List (Nat × List GroupMeta)) : Option (List ShardingRewriteOutput) :=
  match dbIproductBuild ctx tables none [] with
  | none => none
  | some (shCol, gcs) =>
    iproductOutputs ctx avgsM fieldsM ordersM groupsM
      (fun g => (ctx.endpoints.get? g).map DataSource.Endpoint) shCol gcs

/-- The shard-index loop of `table_strategy_iproduct`: one suffixed table
rendering per shard index in `0..sharding_count`. -/
def tblIdxLoop (ctx : ShardingRewrite) (t : Nat × Sharding × TableIdent) :
    List Nat → List (Nat × Nat × List DatabaseChange) →
    Option (List (Nat × Nat × List DatabaseChange))
  | [], gcs => some gcs
  | i :: is, gcs =>
    match change_table ctx.default_db t.2.2 "" i with
    | none => none
    | some target => tblIdxLoop ctx t is (imPushChange gcs i t.1 ⟨t.2.2.span, target, i, t.2.1⟩)

/-- The table loop of `table_strategy_iproduct`: per table, recompute the
(shared) data source — `actual_datanodes[0]` under read-write split, else
`self.endpoints[0]` — and the sharding column/count (`unwrap`s), then run the
shard-index loop. -/
def tblIproductBuild (ctx : ShardingRewrite) :
    List (Nat × Sharding × TableIdent) → Option DataSource → Option String →
    List (Nat × Nat × List DatabaseChange) →
    Option (Option DataSource × Option String × List (Nat × Nat × List DatabaseChange))
  | [], ds, shCol, gcs => some (ds, shCol, gcs)
  | t :: ts, _ds, _shCol, gcs =>
    match (if ctx.has_rw then (t.2.1.actual_datanodes.head?).map DataSource.NodeGroup
           else (ctx.endpoints.head?).map DataSource.Endpoint) with
    | none => none
    | some ds2 =>
      match (Sharding.get_sharding_column t.2.1).2 with
      | none => none
      | some col =>
        match (Sharding.get_sharding_count t.2.1).2 with
        | none => none
        | some cnt =>
          match tblIdxLoop ctx t (List.range cnt) gcs with
          | none => none
          | some gcs2 => tblIproductBuild ctx ts (some ds2) (some col) gcs2

/-- `ShardingRewrite::table_strategy_iproduct` (broadcast over the shard
indices); every output shares the single data source computed by the table
loop (`unwrap`ped per output). -/
def table_strategy_iproduct (ctx : ShardingRewrite)
    (tables : List (Nat × Sharding × TableIdent)) (avgsM : List (Nat × List AvgMeta))
    (fieldsM : List (Nat × List FieldMeta)) (ordersM : List (Nat × List OrderMeta))
    (groupsM : List (Nat × List GroupMeta)) : Option (List ShardingRewriteOutput) :=
  match tblIproductBuild ctx tables none none [] with
  | none => none
  | some (ds, shCol, gcs) =>
    iproductOutputs ctx avgsM fieldsM ordersM groupsM (fun _ => ds) shCol gcs

/-- `ShardingRewrite::database_strategy`.  Note the missing empty check on the
filtered predicate list: `wheres[0]` is indexed directly after the
`filter_map`, so a non-empty WHERE set whose predicates all miss the sharding
column panics (modelled by the `.head?` match returning `.panicked`). -/
def database_strategy (ctx : ShardingRewrite) (f64bits : ℚ → List Nat)
    (meta : RewriteMetaData) (tryTables : List (Nat × Sharding × TableIdent)) :
    RunRes (List ShardingRewriteOutput) :=
  if meta.inserts.isEmpty = false then
    if meta.fields.isEmpty then .err .FieldsIsEmpty
    else change_insert_sql ctx tryTables meta.fields meta.inserts
  else if meta.wheres.isEmpty then
    RunRes.ofPanic
      (database_strategy_iproduct ctx tryTables meta.avgs meta.fields meta.orders meta.groups)
  else
    (find_try_where f64bits .Database tryTables meta.wheres).bind (fun wheresT =>
      let wheresF := wheresT.map (fun x => (x.1, x.2.1))
      match wheresF.head? with
      | none => .panicked
      | some w0 =>
        let expectSum := w0.2 * wheresF.length
        let sumV := (wheresF.map (·.2)).sum
        if expectSum ≠ sumV then
          RunRes.ofPanic
            (database_strategy_iproduct ctx tryTables meta.avgs meta.fields meta.orders meta.groups)
        else
          match get_database_change_plan ctx.default_db (nodeFnDatabase ctx.endpoints)
              tryTables wheresF with
          | none => .panicked
          | some wouldChanges =>
            match wouldChanges.head? with
            | none => .panicked
            | some wc0 =>
              let shardIdx := wc0.2.shard_idx
              let shardingRule := wc0.2.rule
              match database_change_apply 0 ctx.raw_sql wouldChanges with
              | none => .panicked
              | some sqlApplied =>
                match shardingRule.actual_datanodes.get? shardIdx with
                | none => .panicked
                | some nodeName =>
                  match ctx.endpoints.find? (fun e => e.name == nodeName) with
                  | none => .err .EndpointNotFound
                  | some ep =>
                    ((if ctx.has_rw then
                       match shardingRule.actual_datanodes.head? with
                       | none => RunRes.panicked
                       | some n => .ok (DataSource.NodeGroup n)
                     else .ok (DataSource.Endpoint ep)) : RunRes DataSource).bind
                      (fun dataSource =>
                      match shardingRule.database_strategy with
                      | none => .panicked
                      | some dbConfig =>
                        let shardingColumn := dbConfig.database_sharding_column
                        let minMax := (sqlApplied.2.map
                          (fun x => find_min_max_fields x.1 meta.fields)).flatten
                        let changesList := sqlApplied.2.map (·.2)
                        match change_order_group sqlApplied.1 meta.orders meta.groups
                            meta.fields shardIdx with
                        | none => .panicked
                        | some (sqlB, oc, gc) =>
                          let changesList := if oc.target.isEmpty = false then
                              changesList ++ [RewriteChange.OrderChange oc.target oc.direction]
                            else changesList
                          let changesList := if gc.target.isEmpty = false then
                              changesList ++ [RewriteChange.GroupChange gc.target]
                            else changesList
                          if meta.avgs.isEmpty = false then
                            match change_avg sqlB meta.avgs shardIdx 0 with
                            | none => .panicked
                            | some (sqlC, avgT) =>
                              .ok [⟨changesList ++ [.AvgChange avgT], sqlC, dataSource,
                                    some shardingColumn, minMax⟩]
                          else
                            .ok [⟨changesList, sqlB, dataSource, some shardingColumn, minMax⟩]))

/-- `ShardingRewrite::table_strategy`.  Unlike `database_strategy` this path
re-checks emptiness of the filtered predicate list and downgrades to the
broadcast iproduct. -/
def table_strategy (ctx : ShardingRewrite) (f64bits : ℚ → List Nat)
    (meta : RewriteMetaData) (tryTables : List (Nat × Sharding × TableIdent)) :
    RunRes (List ShardingRewriteOutput) :=
  if meta.inserts.isEmpty = false then
    if meta.fields.isEmpty then .err .FieldsIsEmpty
    else change_insert_sql ctx tryTables meta.fields meta.inserts
  else if meta.wheres.isEmpty then
    RunRes.ofPanic
      (table_strategy_iproduct ctx tryTables meta.avgs meta.fields meta.orders meta.groups)
  else
    (find_try_where f64bits .Table tryTables meta.wheres).bind (fun wheresT =>
      let wheresF := wheresT.map (fun x => (x.1, x.2.1))
      if wheresF.isEmpty then
        RunRes.ofPanic
          (table_strategy_iproduct ctx tryTables meta.avgs meta.fields meta.orders meta.groups)
      else
        match wheresF.head? with
        | none => .panicked
        | some w0 =>
          let expectSum := w0.2 * wheresF.length
          let sumV := (wheresF.map (·.2)).sum
          if expectSum ≠ sumV then
            RunRes.ofPanic
              (table_strategy_iproduct ctx tryTables meta.avgs meta.fields meta.orders meta.groups)
          else
            match get_database_change_plan ctx.default_db nodeFnTable tryTables wheresF with
            | none => .panicked
            | some wouldChanges =>
              match wouldChanges.head? with
              | none => .panicked
              | some wc0 =>
                let shardingRule := wc0.2.rule
                let shardIdx := wc0.2.shard_idx
                match database_change_apply 0 ctx.raw_sql wouldChanges with
                | none => .panicked
                | some sqlApplied =>
                  ((if ctx.has_rw then
                     match shardingRule.actual_datanodes.head? with
                     | none => RunRes.panicked
                     | some n => .ok (DataSource.NodeGroup n)
                   else
                     match shardingRule.actual_datanodes.head? with
                     | none => RunRes.panicked
                     | some n0 =>
                       match ctx.endpoints.find? (fun e => e.name == n0) with
                       | none => .err .EndpointNotFound
                       | some ep => .ok (DataSource.Endpoint ep)) : RunRes DataSource).bind
                    (fun dataSource =>
                    match (Sharding.get_sharding_column shardingRule).2 with
                    | none => .panicked
                    | some shardingColumn =>
                      let minMax := (sqlApplied.2.map
                        (fun x => find_min_max_fields x.1 meta.fields)).flatten
                      let changesList := sqlApplied.2.map (·.2)
                      match change_order_group sqlApplied.1 meta.orders meta.groups
                          meta.fields shardIdx with
                      | none => .panicked
                      | some (sqlB, oc, gc) =>
                        let changesList := if oc.target.isEmpty = false then
                            changesList ++ [RewriteChange.OrderChange oc.target oc.direction]
                          else changesList
                        let changesList := if gc.target.isEmpty = false then
                            changesList ++ [RewriteChange.GroupChange gc.target]
                          else changesList
                        if meta.avgs.isEmpty = false then
                          match change_avg sqlB meta.avgs shardIdx 0 with
                          | none => .panicked
                          | some (sqlC, avgT) =>
                            .ok [⟨changesList ++ [.AvgChange avgT], sqlC, dataSource,
                                  some shardingColumn, minMax⟩]
                        else
                          .ok [⟨changesList, sqlB, dataSource, some shardingColumn, minMax⟩]))

/-- The rewriter input `(raw SQL, default database, extracted metadata)`; the
SQL parser and the metadata extractor (`get_meta`) are external
collaborators, so the extracted `RewriteMetaData` replaces the `ast` field. -/
structure ShardingRewriteInput where
  raw_sql : String
  default_db : Option String
  meta : RewriteMetaData

/-- `impl ShardingRewriter for ShardingRewrite { fn rewrite }`: store raw SQL
and default database, match the tables against the rules, and dispatch on the
first candidate's strategy; no candidate (or a rule with neither strategy)
yields `Ok` with the empty output list. -/
def rewrite (ctx0 : ShardingRewrite) (f64bits : ℚ → List Nat)
    (input : ShardingRewriteInput) : RunRes (List ShardingRewriteOutput) :=
  let ctx := { ctx0 with raw_sql := input.raw_sql, default_db := input.default_db }
  match find_table_rule ctx.rules ctx.endpoints ctx.node_group_config ctx.has_rw
      ctx.default_db input.meta.tables with
  | none => .panicked
  | some tryTables =>
    match tryTables.head? with
    | none => .ok []
    | some t0 =>
      if t0.2.1.database_strategy.isSome then database_strategy ctx f64bits input.meta tryTables
      else if t0.2.1.table_strategy.isSome then table_strategy ctx f64bits input.meta tryTables
      else .ok []

/-- The database-strategy test rule of `mod.rs`
(`get_database_sharding_config`). -/
def dbRule : Sharding := ⟨"tshard", ["ds0", "ds1"], some ⟨.Mod, "idx"⟩, none⟩

/-- The table-strategy test rule of `mod.rs` (`get_table_sharding_config`,
`sharding_count = 4`). -/
def tblRule : Sharding := ⟨"tshard", ["ds001"], none, some ⟨.Mod, "idx", 4⟩⟩

/-- Test endpoint `ds0` (database `db0`). -/
def epDs0 : Endpoint := ⟨1, "ds0", "db0", "user", "password", "127.0.0.1"⟩

/-- Test endpoint `ds1` (database `db1`). -/
def epDs1 : Endpoint := ⟨1, "ds1", "db1", "user", "password", "127.0.0.2"⟩

/-- Test endpoint `ds001` (database `db`). -/
def epDs001 : Endpoint := ⟨1, "ds001", "db", "user", "password", "127.0.0.1:3306"⟩

/-- Database-strategy test rewriter state. -/
def dbCtx : ShardingRewrite := ⟨[dbRule], "", [epDs0, epDs1], false, none, none⟩

/-- Table-strategy test rewriter state. -/
def tblCtx : ShardingRewrite := ⟨[tblRule], "", [epDs001], false, none, none⟩

/-- A stand-in for the opaque IEEE-754 byte encoding (no evaluated input
reaches the float CRC branch). -/
def f64bitsDummy : ℚ → List Nat := fun _ => [0, 0, 0, 0, 0, 0, 0, 0]

/-- Empty extracted metadata. -/
def emptyMeta : RewriteMetaData := ⟨[], [], [], [], [], [], []⟩

/-- Extractor output for `SELECT idx from BT db BT .tshard where idx = 3`
(BT = backtick). -/
def inputA : ShardingRewriteInput :=
  { raw_sql := "SELECT idx from `db`.tshard where idx = 3"
    default_db := none
    meta := { emptyMeta with
      tables := [(1, [⟨⟨16, 11⟩, some "`db`", "tshard"⟩])]
      wheres := [(1, [.BinaryExpr "idx" (.Num "3")])]
      fields := [(1, [.Ident ⟨⟨7, 3⟩, "idx", .None⟩])] } }

/-- Extractor output for the two-scope broadcast test
(`... where idx = 3 and idx = (SELECT ... where idx = 4)`). -/
def inputB : ShardingRewriteInput :=
  { raw_sql := "SELECT idx from db.tshard where idx = 3 and idx = (SELECT idx from db.tshard where idx = 4)"
    default_db := none
    meta := { emptyMeta with
      tables := [(1, [⟨⟨16, 9⟩, some "db", "tshard"⟩]), (2, [⟨⟨67, 9⟩, some "db", "tshard"⟩])]
      wheres := [(1, [.BinaryExpr "idx" (.Num "3")]), (2, [.BinaryExpr "idx" (.Num "4")])]
      fields := [(1, [.Ident ⟨⟨7, 3⟩, "idx", .None⟩]), (2, [.Ident ⟨⟨58, 3⟩, "idx", .None⟩])] } }

/-- Extractor output for `INSERT INTO db.tshard(idx) VALUES (12), (13), (16)`. -/
def inputD : ShardingRewriteInput :=
  { raw_sql := "INSERT INTO db.tshard(idx) VALUES (12), (13), (16)"
    default_db := none
    meta := { emptyMeta with
      tables := [(1, [⟨⟨12, 9⟩, some "db", "tshard"⟩])]
      fields := [(1, [.Ident ⟨⟨22, 3⟩, "idx", .None⟩])]
      inserts := [(1, [⟨[⟨"12"⟩], ⟨34, 4⟩⟩, ⟨[⟨"13"⟩], ⟨40, 4⟩⟩, ⟨[⟨"16"⟩], ⟨46, 4⟩⟩])] } }

/-- Extractor output for `UPDATE tshard set a=1 where idx = 2` with default
database `db` (the `test_default_db` test). -/
def inputE : ShardingRewriteInput :=
  { raw_sql := "UPDATE tshard set a=1 where idx = 2"
    default_db := some "db"
    meta := { emptyMeta with
      tables := [(1, [⟨⟨7, 6⟩, none, "tshard"⟩])]
      wheres := [(1, [.BinaryExpr "idx" (.Num "2")])] } }

/-- Extractor output for
`SELECT order_id, order_item_id FROM db.tshard ORDER BY user_id`. -/
def inputF : ShardingRewriteInput :=
  { raw_sql := "SELECT order_id, order_item_id FROM db.tshard ORDER BY user_id"
    default_db := none
    meta := { emptyMeta with
      tables := [(1, [⟨⟨36, 9⟩, some "db", "tshard"⟩])]
      fields := [(1, [.Ident ⟨⟨7, 8⟩, "order_id", .None⟩,
                      .Ident ⟨⟨17, 13⟩, "order_item_id", .None⟩])]
      orders := [(1, [⟨⟨55, 7⟩, "user_id", .Asc⟩])] } }

/-- Extractor output for `SELECT AVG(price) FROM db.tshard WHERE idx > 3`
(the `idx > 3` predicate is not an equality, so the WHERE map is empty). -/
def inputG : ShardingRewriteInput :=
  { raw_sql := "SELECT AVG(price) FROM db.tshard WHERE idx > 3"
    default_db := none
    meta := { emptyMeta with
      tables := [(1, [⟨⟨23, 9⟩, some "db", "tshard"⟩])]
      fields := [(1, [.Ident ⟨⟨7, 10⟩, "AVG(price)", .Avg⟩])]
      avgs := [(1, [⟨⟨7, 10⟩, "price", "AVG(price)"⟩])] } }

/-- The table-strategy rendering of spec section 4.5, written from the spec's
words: the (effective) schema wrapped in backticks, a dot, and the name
suffixed with `_` and the padded shard index, the suffixed name quoted iff
the original name was quoted. -/
def tableRenderSpec (schema name : String) (idx : Nat) : String :=
  btickS ++ schema ++ btickS ++ "." ++
    (if containsTick name then btickS ++ stripTicks name ++ "_" ++ pad5 idx ++ btickS
     else name ++ "_" ++ pad5 idx)

/-- The database-strategy rendering of spec section 4.5, written from the
spec's words: the actual node, quoted iff the schema was quoted, a dot, and
the original table name. -/
def databaseRenderSpec (schema node name : String) : String :=
  (if containsTick schema then btickS ++ node ++ btickS else node) ++ "." ++ name

/-- Concatenation of a list of strings (the accumulated `push_str`s of one
`change_rows` entry). -/
def concatStr : List String → String
  | [] => ""
  | s :: rest => s ++ concatStr rest

/-- The per-shard row prefix of `change_insert_sql_inner`: under the table
strategy the row prefix with the table reference replaced by its sharded
form, otherwise the unmodified prefix (panics normalised by `getD`, which on
every successful run coincides with the computed value). -/
def rowPrefixOf (defDb : Option String) (rule : Sharding) (table : TableIdent)
    (pre : String) (k : Nat) : String :=
  if rule.table_strategy.isSome then
    (change_sql pre table.span ((change_table defDb table "" k).getD "") 0).getD ""
  else pre

/-- The rendered text of one VALUES row: its slice of the raw SQL followed by
`", "`. -/
def rowTextOf (raw : String) (sp : Span) : String :=
  (strSlice raw sp.start sp.endPos).getD "" ++ ", "

/-- Rendering of one span-level shard group as its `change_rows` string:
the shard's row prefix followed by the concatenated row texts. -/
def renderGroup (defDb : Option String) (rule : Sharding) (table : TableIdent)
    (raw pre : String) (g : Nat × List Span) : Nat × String :=
  (g.1, rowPrefixOf defDb rule table pre g.1 ++ concatStr (g.2.map (rowTextOf raw)))

/-- Extractor output for `SELECT idx from db.tshard where zl = 3`: the WHERE
set is non-empty but no predicate mentions the sharding column `idx`. -/
def inputNoShardPred : ShardingRewriteInput :=
  { raw_sql := "SELECT idx from db.tshard where zl = 3"
    default_db := none
    meta := { emptyMeta with
      tables := [(1, [⟨⟨16, 9⟩, some "db", "tshard"⟩])]
      wheres := [(1, [.BinaryExpr "zl" (.Num "3")])]
      fields := [(1, [.Ident ⟨⟨7, 3⟩, "idx", .None⟩])] } }

/-- The single unqualified `tshard` reference of the C5 failing input. -/
def c5Tables : List (Nat × List TableIdent) := [(1, [⟨⟨0, 6⟩, none, "tshard"⟩])]

example : u64Calc 3 .Mod 2 = some 1 := by decide

example : i64Calc (-1) .Mod 2 = some (2 ^ 64 - 1) := by decide

example : f64CalcMod (3 / 2) 2 = 2 := by
  unfold f64CalcMod satCastU64 roundHalfAway fmodTrunc ratTrunc
  norm_num
  rfl

example : rewrite dbCtx f64bitsDummy inputA =
    .ok [⟨[.DatabaseChange ⟨⟨16, 11⟩, "`db1`.tshard", 1, dbRule⟩],
          "SELECT idx from `db1`.tshard where idx = 3",
          .Endpoint epDs1, some "idx", []⟩] := by rfl

example :
    (match rewrite dbCtx f64bitsDummy inputB with
     | .ok outs => some (outs.map (fun o => (o.target_sql, o.data_source)))
     | _ => none) =
    some [("SELECT idx from db0.tshard where idx = 3 and idx = (SELECT idx from db0.tshard where idx = 4)",
           .Endpoint epDs0),
          ("SELECT idx from db1.tshard where idx = 3 and idx = (SELECT idx from db1.tshard where idx = 4)",
           .Endpoint epDs1)] := by rfl

example :
    (match rewrite tblCtx f64bitsDummy inputD with
     | .ok outs => some (outs.map (fun o => (o.target_sql, o.data_source)))
     | _ => none) =
    some [("INSERT INTO `db`.tshard_00000(idx) VALUES (12), (16)", .Endpoint epDs001),
          ("INSERT INTO `db`.tshard_00001(idx) VALUES (13)", .Endpoint epDs001)] := by rfl

example : rewrite tblCtx f64bitsDummy inputE =
    .ok [⟨[.DatabaseChange ⟨⟨7, 6⟩, "`db`.tshard_00002", 2, tblRule⟩],
          "UPDATE `db`.tshard_00002 set a=1 where idx = 2",
          .Endpoint epDs001, some "idx", []⟩] := by rfl

example :
    (match rewrite tblCtx f64bitsDummy inputF with
     | .ok outs => some (outs.map (·.target_sql))
     | _ => none) =
    some ["SELECT order_id, order_item_id, user_id AS USER_ID_ORDER_BY_DERIVED_00000 FROM `db`.tshard_00000 ORDER BY user_id",
          "SELECT order_id, order_item_id, user_id AS USER_ID_ORDER_BY_DERIVED_00001 FROM `db`.tshard_00001 ORDER BY user_id",
          "SELECT order_id, order_item_id, user_id AS USER_ID_ORDER_BY_DERIVED_00002 FROM `db`.tshard_00002 ORDER BY user_id",
          "SELECT order_id, order_item_id, user_id AS USER_ID_ORDER_BY_DERIVED_00003 FROM `db`.tshard_00003 ORDER BY user_id"] := by rfl

example :
    (match rewrite tblCtx f64bitsDummy inputG with
     | .ok outs => (outs.map (·.target_sql)).head?
     | _ => none) =
    some "SELECT COUNT(price) AS PRICE_AVG_DERIVED_COUNT_00000, SUM(price) AS PRICE_AVG_DERIVED_SUM_00000 FROM `db`.tshard_00000 WHERE idx > 3" := by rfl

theorem sdata_push (s : String) (c : Char) : (s.push c).data = s.data ++ [c] := by
  cases s; rfl

theorem sdata_append (a b : String) : (a ++ b).data = a.data ++ b.data := by
  cases a; cases b; rfl

theorem sdata_ext {a b : String} (h : a.data = b.data) : a = b := by
  cases a; cases b; cases h; rfl

theorem sdata_empty : ("" : String).data = [] := rfl

/-- C7: for every matched table reference whose effective schema exists (its
own schema if present, else the session default database), `change_table`
renders exactly the spec's text: under the table strategy (empty actual
node) the backtick-wrapped schema, a dot, and the name suffixed with `_` and
the zero-padded shard index (the suffixed name backtick-quoted iff the
original name was); under the database strategy, the actual node (quoted iff
the schema was) followed by a dot and the original table name. -/
theorem sdata_dotlit : ("." : String).data = ['.'] := rfl

theorem change_table_render (defaultDb : Option String) (tbl : TableIdent) (node : String)
    (idx : Nat) (schema : String)
    (h : (match tbl.schema with | some s => some s | none => defaultDb) = some schema) :
    change_table defaultDb tbl node idx =
      some (if node = "" then tableRenderSpec schema tbl.name idx
            else databaseRenderSpec schema node tbl.name) := by
  cases hs : tbl.schema with
  | some s =>
    rw [hs] at h
    have hs2 : s = schema := Option.some.inj h
    subst hs2
    unfold change_table
    rw [hs]
    unfold tableRenderSpec databaseRenderSpec
    dsimp only
    split
    case isTrue =>
      split
      case isTrue =>
        refine congrArg some (sdata_ext ?_)
        simp [sdata_push, sdata_append, btickS, String.singleton, sdata_empty, sdata_dotlit]
      case isFalse =>
        refine congrArg some (sdata_ext ?_)
        simp [sdata_push, sdata_append, btickS, String.singleton, sdata_empty, sdata_dotlit]
    case isFalse =>
      refine congrArg some (sdata_ext ?_)
      split
      case isTrue =>
        simp [sdata_push, sdata_append, btickS, String.singleton, sdata_empty, sdata_dotlit]
      case isFalse =>
        simp [sdata_push, sdata_append, btickS, String.singleton, sdata_empty, sdata_dotlit]
  | none =>
    rw [hs] at h
    dsimp only at h
    unfold change_table
    rw [hs]
    dsimp only
    rw [h]
    unfold tableRenderSpec databaseRenderSpec
    dsimp only
    split
    case isTrue =>
      split
      case isTrue =>
        refine congrArg some (sdata_ext ?_)
        simp [sdata_push, sdata_append, btickS, String.singleton, sdata_empty, sdata_dotlit]
      case isFalse =>
        refine congrArg some (sdata_ext ?_)
        simp [sdata_push, sdata_append, btickS, String.singleton, sdata_empty, sdata_dotlit]
    case isFalse =>
      refine congrArg some (sdata_ext ?_)
      split
      case isTrue =>
        simp [sdata_push, sdata_append, btickS, String.singleton, sdata_empty, sdata_dotlit]
      case isFalse =>
        simp [sdata_push, sdata_append, btickS, String.singleton, sdata_empty, sdata_dotlit]

theorem change_table_render_witness :
    change_table (some "db") ⟨⟨0, 0⟩, none, "tshard"⟩ "" 2 =
      some (if "" = "" then tableRenderSpec "db" "tshard" 2
            else databaseRenderSpec "db" "" "tshard") :=
  change_table_render (some "db") ⟨⟨0, 0⟩, none, "tshard"⟩ "" 2 "db" rfl

/-- C6: for every FSM cursor and event, `trigger` moves to the destination of
the first transition-table row whose (event, source) pair matches the event
and the current state — recording the event name — and returns `true` iff
such a row exists and the current (source) state was `TransDummyState`; when
no row matches, the cursor is unchanged and the result is `false`. -/
theorem fsm_trigger_first_match (s : FsmCore) (e : TransEventName) :
    trigger s e =
      match init_trans_events.find?
          (fun ev => ev.name == e && ev.src_state == s.current_state) with
      | some row => (⟨row.dst_state, row.name⟩,
                     decide (s.current_state = TransState.TransDummyState))
      | none => (s, false) := by
  obtain ⟨st, ce⟩ := s
  cases st <;> cases e <;> rfl

/-- C9: `put_conn` followed by `get_conn` yields exactly the stored
connection and leaves the FSM's cached primary connection empty (the
connection is moved, never duplicated); `get_conn` on an FSM with no cached
connection is the panic path (`none`), not an error return. -/
theorem put_get_conn_roundtrip {C : Type} (s : TransFsm C) (c : C) :
    (s.put_conn c).get_conn = some (c, { s with client_conn := none }) ∧
    TransFsm.get_conn { s with client_conn := none } = (none : Option (C × TransFsm C)) :=
  ⟨rfl, rfl⟩

theorem findTableInner_nil_rules (defDb : Option String) (hasRw : Bool)
    (ngc : Option NodeGroup) :
    ∀ (st : List Endpoint) (k : Nat) (ts : List TableIdent),
      findTableInner (calcFn [] defDb hasRw ngc) st k ts = some ([], st) := by
  intro st k ts
  induction ts generalizing st with
  | nil => rfl
  | cons t ts ih => simpa [findTableInner, calcFn] using ih _

theorem findTableTop_nil_rules (defDb : Option String) (hasRw : Bool)
    (ngc : Option NodeGroup) :
    ∀ (st : List Endpoint) (tables : List (Nat × List TableIdent)),
      findTableTop (calcFn [] defDb hasRw ngc) st tables = some ([], st) := by
  intro st tables
  induction tables generalizing st with
  | nil => rfl
  | cons e rest ih =>
    simp [findTableTop, findTableInner_nil_rules, ih]

/-- C8: a statement none of whose table references reachably matches a rule
(the candidate-triple list of `find_table_rule` is empty) makes `rewrite`
return `Ok` with the empty output list — never an error — which is the
caller's broadcast-fallback signal; in particular an empty rule set always
does. -/
theorem rewrite_empty_on_no_match (ctx : ShardingRewrite) (f64bits : ℚ → List Nat)
    (input : ShardingRewriteInput) :
    (find_table_rule ctx.rules ctx.endpoints ctx.node_group_config ctx.has_rw
        input.default_db input.meta.tables = some [] →
      rewrite ctx f64bits input = .ok []) ∧
    (ctx.rules = [] → rewrite ctx f64bits input = .ok []) := by
  have main : find_table_rule ctx.rules ctx.endpoints ctx.node_group_config ctx.has_rw
      input.default_db input.meta.tables = some [] →
      rewrite ctx f64bits input = .ok [] := by
    intro h
    unfold rewrite
    dsimp only
    rw [h]
    rfl
  refine ⟨main, fun hr => main ?_⟩
  unfold find_table_rule
  rw [hr, findTableTop_nil_rules]
  rfl

theorem rewrite_empty_on_no_match_witness :
    rewrite ⟨[tblRule], "", [epDs001], false, none, none⟩ f64bitsDummy
      ⟨"SELECT a FROM other", none,
       { emptyMeta with tables := [(1, [⟨⟨14, 5⟩, none, "other"⟩])] }⟩ = .ok [] :=
  (rewrite_empty_on_no_match _ _ _).1 (by rfl)

theorem calcFn_flag_true {rules : List Sharding} {defDb : Option String} {hasRw : Bool}
    {ngc : Option NodeGroup} {st st2 : List Endpoint} {idx i : Nat} {meta : TableIdent}
    {orule : Option Sharding}
    (h : calcFn rules defDb hasRw ngc st idx meta = some ((i, orule, true), st2)) :
    meta.schema.isSome = true ∨ defDb.isSome = true := by
  unfold calcFn at h
  cases hf : rules.find? (fun x => x.table_name == nameStripped meta.name) with
  | none => rw [hf] at h; exact absurd (congrArg (fun p => p.1.2.2) (Option.some.inj h)) (by simp)
  | some rule =>
    rw [hf] at h
    cases hd : defDb with
    | some d => right; simp [hd]
    | none =>
      rw [hd] at h
      dsimp only at h
      by_cases hsch : meta.schema.isSome = true
      · exact Or.inl hsch
      · rw [if_neg (by simp [hsch])] at h
        exact absurd (congrArg (fun p => p.1.2.2) (Option.some.inj h)) (by simp)

theorem change_table_isSome (defDb : Option String) (tbl : TableIdent) (node : String)
    (idx : Nat) (h : tbl.schema.isSome = true ∨ defDb.isSome = true) :
    (change_table defDb tbl node idx).isSome = true := by
  unfold change_table
  cases hs : tbl.schema with
  | some s =>
    dsimp only
    split
    · split <;> rfl
    · rfl
  | none =>
    cases hd : defDb with
    | none => rw [hs, hd] at h; simp at h
    | some d =>
      dsimp only
      split
      · split <;> rfl
      · rfl

theorem findTableInner_schema {rules : List Sharding} {defDb : Option String} {hasRw : Bool}
    {ngc : Option NodeGroup} :
    ∀ (st : List Endpoint) (k : Nat) (ts : List TableIdent)
      (l : List (Nat × Sharding × TableIdent)) (st2 : List Endpoint),
      findTableInner (calcFn rules defDb hasRw ngc) st k ts = some (l, st2) →
      ∀ x ∈ l, x.2.2.schema.isSome = true ∨ defDb.isSome = true := by
  intro st k ts
  induction ts generalizing st with
  | nil =>
    intro l st2 h x hx
    unfold findTableInner at h
    injection h with h
    injection h with h1 h2
    subst h1
    simp at hx
  | cons t ts ih =>
    intro l st2 h x hx
    unfold findTableInner at h
    cases hc : calcFn rules defDb hasRw ngc st k t with
    | none => rw [hc] at h; exact absurd h (by simp)
    | some r =>
      rw [hc] at h
      obtain ⟨⟨i, orule, flag⟩, st3⟩ := r
      cases flag with
      | false =>
        dsimp only at h
        rw [if_neg (by simp)] at h
        exact ih st3 l st2 h x hx
      | true =>
        dsimp only at h
        rw [if_pos rfl] at h
        cases orule with
        | none => exact absurd h (by simp)
        | some rule =>
          cases hrec : findTableInner (calcFn rules defDb hasRw ngc) st3 k ts with
          | none => rw [hrec] at h; exact absurd h (by simp)
          | some p =>
            obtain ⟨rest, st4⟩ := p
            rw [hrec] at h
            dsimp only at h
            injection h with h
            injection h with h1 h2
            subst h1
            rcases List.mem_cons.mp hx with hx1 | hx2
            · subst hx1
              exact calcFn_flag_true hc
            · exact ih st3 rest st4 hrec x hx2

theorem findTableTop_schema {rules : List Sharding} {defDb : Option String} {hasRw : Bool}
    {ngc : Option NodeGroup} :
    ∀ (st : List Endpoint) (tables : List (Nat × List TableIdent))
      (l : List (Nat × Sharding × TableIdent)) (st2 : List Endpoint),
      findTableTop (calcFn rules defDb hasRw ngc) st tables = some (l, st2) →
      ∀ x ∈ l, x.2.2.schema.isSome = true ∨ defDb.isSome = true := by
  intro st tables
  induction tables generalizing st with
  | nil =>
    intro l st2 h x hx
    unfold findTableTop at h
    injection h with h
    injection h with h1 h2
    subst h1
    simp at hx
  | cons e rest ih =>
    intro l st2 h x hx
    unfold findTableTop at h
    cases hi : findTableInner (calcFn rules defDb hasRw ngc) st e.1 e.2 with
    | none => rw [hi] at h; exact absurd h (by simp)
    | some p =>
      obtain ⟨res1, st3⟩ := p
      rw [hi] at h
      dsimp only at h
      cases ht : findTableTop (calcFn rules defDb hasRw ngc) st3 rest with
      | none => rw [ht] at h; exact absurd h (by simp)
      | some q =>
        obtain ⟨res2, st4⟩ := q
        rw [ht] at h
        dsimp only at h
        injection h with h
        injection h with h1 h2
        subst h1
        rcases List.mem_append.mp hx with hx1 | hx2
        · exact findTableInner_schema st e.1 e.2 res1 st3 hi x hx1
        · exact ih st3 res2 st4 ht x hx2

/-- C10: every candidate triple produced by `find_table_rule` carries an
explicit schema qualifier or was matched with a default database set; hence
the `default_db.unwrap()` inside `change_table` cannot panic on any candidate
reachable through the public rewrite entry point. -/
theorem find_table_rule_schema_or_default (rules : List Sharding) (eps : List Endpoint)
    (ngc : Option NodeGroup) (hasRw : Bool) (defDb : Option String)
    (tables : List (Nat × List TableIdent)) (l : List (Nat × Sharding × TableIdent))
    (h : find_table_rule rules eps ngc hasRw defDb tables = some l) :
    ∀ x ∈ l, (x.2.2.schema.isSome = true ∨ defDb.isSome = true) ∧
      ∀ (node : String) (idx : Nat), (change_table defDb x.2.2 node idx).isSome = true := by
  unfold find_table_rule at h
  cases ht : findTableTop (calcFn rules defDb hasRw ngc) eps tables with
  | none => rw [ht] at h; exact absurd h (by simp)
  | some p =>
    rw [ht] at h
    obtain ⟨res, st⟩ := p
    dsimp only [Option.map] at h
    injection h with h1
    subst h1
    intro x hx
    have hd := findTableTop_schema eps tables res st ht x hx
    exact ⟨hd, fun node idx => change_table_isSome defDb x.2.2 node idx hd⟩

theorem find_table_rule_schema_or_default_witness :
    ((⟨⟨7, 6⟩, none, "tshard"⟩ : TableIdent).schema.isSome = true ∨
      (some "db" : Option String).isSome = true) ∧
    ∀ (node : String) (idx : Nat),
      (change_table (some "db") ⟨⟨7, 6⟩, none, "tshard"⟩ node idx).isSome = true :=
  find_table_rule_schema_or_default [tblRule] [epDs001] none false (some "db")
    [(1, [⟨⟨7, 6⟩, none, "tshard"⟩])] [(1, tblRule, ⟨⟨7, 6⟩, none, "tshard"⟩)]
    (by rfl) (1, tblRule, ⟨⟨7, 6⟩, none, "tshard"⟩) (by simp)

theorem sapp_assoc (a b c : String) : a ++ b ++ c = a ++ (b ++ c) :=
  sdata_ext (by simp [sdata_append])

theorem snil_append (a : String) : "" ++ a = a :=
  sdata_ext (by simp [sdata_append, sdata_empty])

theorem concatStr_append (a b : List String) :
    concatStr (a ++ b) = concatStr a ++ concatStr b := by
  induction a with
  | nil => simp [concatStr, snil_append]
  | cons s rest ih => simp [concatStr, ih, sapp_assoc]

theorem addRow_join_perm (gs : List (Nat × List Span)) (k : Nat) (s : Span) :
    ((addRow gs k s).map (·.2)).flatten.Perm ((gs.map (·.2)).flatten ++ [s]) := by
  induction gs with
  | nil => simp [addRow]
  | cons g rest ih =>
    unfold addRow
    by_cases hk : g.1 = k
    · rw [if_pos hk]
      simp only [List.map_cons, List.flatten_cons, List.append_assoc]
      exact List.Perm.append_left g.2 (by simpa using @List.perm_append_comm _ [s] _)
    · rw [if_neg hk]
      simp only [List.map_cons, List.flatten_cons, List.append_assoc]
      exact List.Perm.append_left g.2 ih

theorem insertGroupRowsAux_join_perm :
    ∀ (cs : List (Nat × Span)) (gs : List (Nat × List Span)),
      ((insertGroupRowsAux gs cs).map (·.2)).flatten.Perm
        ((gs.map (·.2)).flatten ++ cs.map (·.2)) := by
  intro cs
  induction cs with
  | nil => intro gs; simp [insertGroupRowsAux]
  | cons c cs ih =>
    intro gs
    unfold insertGroupRowsAux
    refine ((ih (addRow gs c.1 c.2)).trans ?_)
    refine ((addRow_join_perm gs c.1 c.2).append_right (cs.map (fun x => x.2))).trans ?_
    rw [List.append_assoc]
    simp only [List.map_cons]
    exact List.Perm.refl _

theorem addRow_find? (gs : List (Nat × List Span)) (k0 k : Nat) (s : Span) :
    (addRow gs k0 s).find? (fun g => g.1 == k) =
      if k0 = k then
        some (k0, ((gs.find? (fun g => g.1 == k)).map (·.2)).getD [] ++ [s])
      else gs.find? (fun g => g.1 == k) := by
  induction gs with
  | nil =>
    by_cases hk : k0 = k
    · subst hk; simp [addRow, List.find?]
    · have hb : (k0 == k) = false := by simp [hk]
      simp [addRow, List.find?, hb, hk]
  | cons g rest ih =>
    unfold addRow
    by_cases hg : g.1 = k0
    · rw [if_pos hg]
      by_cases hk : k0 = k
      · subst hk
        have : (g.1 == k0) = true := by simp [hg]
        simp [List.find?, this, hg]
      · have hne : (g.1 == k) = false := by
          subst hg; simp; exact fun h => hk h
        simp [List.find?, hne, hk]
    · rw [if_neg hg]
      by_cases hgk : g.1 = k
      · have ht : (g.1 == k) = true := by simp [hgk]
        have hk0 : k0 ≠ k := fun h => hg (by rw [h, ← hgk])
        simp [List.find?, ht, hk0]
      · have hf : (g.1 == k) = false := by simp [hgk]
        simp [List.find?, hf, ih]

theorem addRow_keys_sub (gs : List (Nat × List Span)) (k0 : Nat) (s : Span) :
    ∀ x ∈ (addRow gs k0 s).map (·.1), x ∈ gs.map (·.1) ∨ x = k0 := by
  induction gs with
  | nil => intro x hx; simp [addRow] at hx; right; exact hx
  | cons g rest ih =>
    intro x hx
    unfold addRow at hx
    by_cases hg : g.1 = k0
    · rw [if_pos hg] at hx
      simp at hx
      rcases hx with hx | hx
      · left; simp [hx]
      · left; simp; right; exact hx
    · rw [if_neg hg] at hx
      simp at hx
      rcases hx with hx | hx
      · left; simp [hx]
      · rcases ih x (by simpa using hx) with h | h
        · left; simp; right; simpa using h
        · right; exact h

theorem addRow_keys_nodup (gs : List (Nat × List Span)) (k0 : Nat) (s : Span)
    (h : (gs.map (·.1)).Nodup) : ((addRow gs k0 s).map (·.1)).Nodup := by
  induction gs with
  | nil => simp [addRow]
  | cons g rest ih =>
    unfold addRow
    by_cases hg : g.1 = k0
    · rw [if_pos hg]; simpa using h
    · rw [if_neg hg]
      simp only [List.map_cons, List.nodup_cons] at h ⊢
      refine ⟨fun hc => ?_, ih h.2⟩
      rcases addRow_keys_sub rest k0 s g.1 hc with hmem | heq
      · exact h.1 hmem
      · exact hg heq

theorem mem_nodup_find? (gs : List (Nat × List Span)) (k : Nat) (l : List Span)
    (hn : (gs.map (·.1)).Nodup) (hm : (k, l) ∈ gs) :
    gs.find? (fun g => g.1 == k) = some (k, l) := by
  induction gs with
  | nil => simp at hm
  | cons g rest ih =>
    simp only [List.map_cons, List.nodup_cons] at hn
    rcases List.mem_cons.mp hm with hm1 | hm2
    · subst hm1; simp [List.find?]
    · have hgk : g.1 ≠ k := by
        intro h
        exact hn.1 (h ▸ (List.mem_map.mpr ⟨(k, l), hm2, rfl⟩))
      have hf : (g.1 == k) = false := by simp [hgk]
      simp [List.find?, hf]
      exact ih hn.2 hm2

theorem insertGroupRowsAux_keys_nodup :
    ∀ (cs : List (Nat × Span)) (gs : List (Nat × List Span)),
      (gs.map (·.1)).Nodup → ((insertGroupRowsAux gs cs).map (·.1)).Nodup := by
  intro cs
  induction cs with
  | nil => intro gs h; simpa [insertGroupRowsAux] using h
  | cons c cs ih =>
    intro gs h
    unfold insertGroupRowsAux
    exact ih _ (addRow_keys_nodup gs c.1 c.2 h)

theorem insertGroupRowsAux_mem :
    ∀ (cs : List (Nat × Span)) (gs : List (Nat × List Span)),
      (gs.map (·.1)).Nodup →
      ∀ k l, (k, l) ∈ insertGroupRowsAux gs cs →
        l = ((gs.find? (fun g => g.1 == k)).map (·.2)).getD [] ++
            (cs.filter (fun c => c.1 == k)).map (·.2) := by
  intro cs
  induction cs with
  | nil =>
    intro gs hn k l hm
    unfold insertGroupRowsAux at hm
    rw [mem_nodup_find? gs k l hn hm]
    simp
  | cons c cs ih =>
    intro gs hn k l hm
    unfold insertGroupRowsAux at hm
    have h2 := ih (addRow gs c.1 c.2) (addRow_keys_nodup gs c.1 c.2 hn) k l hm
    rw [addRow_find?] at h2
    by_cases hck : c.1 = k
    · rw [if_pos hck] at h2
      have hf : (c.1 == k) = true := by simp [hck]
      rw [h2]
      subst hck
      simp [List.filter, List.append_assoc]
    · rw [if_neg hck] at h2
      have hf : (c.1 == k) = false := by simp [hck]
      rw [h2]
      simp [List.filter, hf]

theorem sappend_nil (a : String) : a ++ "" = a :=
  sdata_ext (by simp [sdata_append, sdata_empty])

theorem imAppendStr_render (defDb : Option String) (rule : Sharding) (table : TableIdent)
    (raw pre : String) :
    ∀ (gs : List (Nat × List Span)) (k : Nat) (sp : Span) (p txt : String),
      p = rowPrefixOf defDb rule table pre k → txt = rowTextOf raw sp →
      imAppendStr (gs.map (renderGroup defDb rule table raw pre)) k p txt =
        (addRow gs k sp).map (renderGroup defDb rule table raw pre) := by
  intro gs k0 sp0 p0 txt0 hp0 ht0
  subst hp0
  subst ht0
  revert k0 sp0
  induction gs with
  | nil =>
    intro k sp
    simp [imAppendStr, addRow, renderGroup, concatStr, sappend_nil]
  | cons g rest ih =>
    intro k sp
    by_cases hg : g.1 = k
    · simp only [List.map_cons, imAppendStr, renderGroup, addRow, if_pos hg]
      simp [concatStr_append, concatStr, sappend_nil, sapp_assoc]
    · simp only [List.map_cons, imAppendStr, renderGroup, addRow, if_neg hg]
      rw [ih k sp]

theorem changeRowsStr_render (defDb : Option String) (rule : Sharding) (table : TableIdent)
    (raw pre : String) :
    ∀ (cs : List (Nat × Span)) (gs : List (Nat × List Span)) (idx : Nat)
      (accOut : List (Nat × String)) (idxOut : Nat),
      changeRowsStrAux defDb rule table raw pre cs
          (gs.map (renderGroup defDb rule table raw pre)) idx = some (accOut, idxOut) →
      accOut = (insertGroupRowsAux gs cs).map (renderGroup defDb rule table raw pre) := by
  intro cs
  induction cs with
  | nil =>
    intro gs idx accOut idxOut h
    unfold changeRowsStrAux at h
    injection h with h
    injection h with h1 h2
    exact h1.symm
  | cons c cs ih =>
    intro gs idx accOut idxOut h
    unfold changeRowsStrAux at h
    cases htt : change_table defDb table "" c.1 with
    | none => rw [htt] at h; exact absurd h (by simp)
    | some tt =>
      rw [htt] at h
      dsimp only at h
      cases hts : rule.table_strategy.isSome with
      | true =>
        rw [hts] at h
        simp only [reduceIte] at h
        cases hcs : change_sql pre table.span tt 0 with
        | none => rw [hcs] at h; exact absurd h (by simp)
        | some p =>
          rw [hcs] at h
          cases hsl : strSlice raw c.2.start c.2.endPos with
          | none => rw [hsl] at h; exact absurd h (by simp)
          | some rowText =>
            rw [hsl] at h
            dsimp only at h
            have hpfx : p = rowPrefixOf defDb rule table pre c.1 := by
              unfold rowPrefixOf
              rw [hts, if_pos rfl, htt]
              simp [hcs]
            have htxt : rowText ++ ", " = rowTextOf raw c.2 := by
              unfold rowTextOf
              rw [hsl]
              rfl
            rw [imAppendStr_render defDb rule table raw pre gs c.1 c.2 p
                  (rowText ++ ", ") hpfx htxt] at h
            unfold insertGroupRowsAux
            exact ih (addRow gs c.1 c.2) _ accOut idxOut h
      | false =>
        rw [hts] at h
        simp only [if_neg (show ¬(false = true) by simp)] at h
        cases hsl : strSlice raw c.2.start c.2.endPos with
        | none => rw [hsl] at h; exact absurd h (by simp)
        | some rowText =>
          rw [hsl] at h
          dsimp only at h
          have hpfx : pre = rowPrefixOf defDb rule table pre c.1 := by
            unfold rowPrefixOf
            rw [hts]
            simp
          have htxt : rowText ++ ", " = rowTextOf raw c.2 := by
            unfold rowTextOf
            rw [hsl]
            rfl
          rw [imAppendStr_render defDb rule table raw pre gs c.1 c.2 pre
                (rowText ++ ", ") hpfx htxt] at h
          unfold insertGroupRowsAux
          exact ih (addRow gs c.1 c.2) _ accOut idxOut h

/-- C4: the INSERT rewrite partitions the original VALUES rows.  Part 1: on
every successful run, the string map built by the `change_rows` loop of
`change_insert_sql_inner` is exactly the rendering of the span-level row
groups (per shard: its row prefix followed by its rows' texts in original
order).  Part 2: the multiset union of the rows across the groups equals the
original row list.  Part 3: each group holds exactly the rows computed for
its shard, in original relative order (a filter of the original list).
Part 4: the group keys are distinct, so every row lands in exactly one
output. -/
theorem insert_partition (defDb : Option String) (rule : Sharding) (table : TableIdent)
    (raw pre : String) (cs : List (Nat × Span)) :
    (∀ (accOut : List (Nat × String)) (idxOut : Nat),
       changeRowsStrAux defDb rule table raw pre cs [] 0 = some (accOut, idxOut) →
       accOut = (insertGroupRows cs).map (renderGroup defDb rule table raw pre)) ∧
    ((insertGroupRows cs).map (·.2)).flatten.Perm (cs.map (·.2)) ∧
    (∀ (k : Nat) (l : List Span), (k, l) ∈ insertGroupRows cs →
       l = (cs.filter (fun c => c.1 == k)).map (·.2)) ∧
    ((insertGroupRows cs).map (·.1)).Nodup := by
  refine ⟨?_, ?_, ?_, ?_⟩
  · intro accOut idxOut h
    exact changeRowsStr_render defDb rule table raw pre cs [] 0 accOut idxOut h
  · simpa using insertGroupRowsAux_join_perm cs []
  · intro k l hm
    simpa using insertGroupRowsAux_mem cs [] (by simp) k l hm
  · exact insertGroupRowsAux_keys_nodup cs [] (by simp)

theorem insert_partition_witness :
    (∃ out : List (Nat × String) × Nat,
       changeRowsStrAux none tblRule ⟨⟨12, 9⟩, some "db", "tshard"⟩
           "INSERT INTO db.tshard(idx) VALUES (12), (13), (16)"
           "INSERT INTO db.tshard(idx) VALUES "
           [(0, ⟨34, 4⟩), (1, ⟨40, 4⟩), (0, ⟨46, 4⟩)] [] 0 = some out ∧
       out.1 = (insertGroupRows [(0, ⟨34, 4⟩), (1, ⟨40, 4⟩), (0, ⟨46, 4⟩)]).map
         (renderGroup none tblRule ⟨⟨12, 9⟩, some "db", "tshard"⟩
           "INSERT INTO db.tshard(idx) VALUES (12), (13), (16)"
           "INSERT INTO db.tshard(idx) VALUES ")) ∧
    [(⟨34, 4⟩ : Span), ⟨46, 4⟩] =
      (([(0, (⟨34, 4⟩ : Span)), (1, ⟨40, 4⟩), (0, ⟨46, 4⟩)].filter
          (fun c => c.1 == 0)).map (·.2)) := by
  constructor
  · refine ⟨(changeRowsStrAux none tblRule ⟨⟨12, 9⟩, some "db", "tshard"⟩
        "INSERT INTO db.tshard(idx) VALUES (12), (13), (16)"
        "INSERT INTO db.tshard(idx) VALUES "
        [(0, ⟨34, 4⟩), (1, ⟨40, 4⟩), (0, ⟨46, 4⟩)] [] 0).getD ([], 0), by rfl, ?_⟩
    exact (insert_partition none tblRule ⟨⟨12, 9⟩, some "db", "tshard"⟩
        "INSERT INTO db.tshard(idx) VALUES (12), (13), (16)"
        "INSERT INTO db.tshard(idx) VALUES "
        [(0, ⟨34, 4⟩), (1, ⟨40, 4⟩), (0, ⟨46, 4⟩)]).1 _ _ (by rfl)
  · exact (insert_partition none tblRule ⟨⟨12, 9⟩, some "db", "tshard"⟩
        "INSERT INTO db.tshard(idx) VALUES (12), (13), (16)"
        "INSERT INTO db.tshard(idx) VALUES "
        [(0, ⟨34, 4⟩), (1, ⟨40, 4⟩), (0, ⟨46, 4⟩)]).2.2.1 0 [⟨34, 4⟩, ⟨46, 4⟩]
      (by decide)

theorem fmodTrunc_lt (v n : ℚ) (hn : 0 < n) : fmodTrunc v n < n := by
  unfold fmodTrunc ratTrunc
  by_cases hq : 0 ≤ v / n
  · rw [if_pos hq]
    have h1 : v / n < ⌊v / n⌋ + 1 := Int.lt_floor_add_one _
    have h2 : v < (⌊v / n⌋ + 1) * n := (div_lt_iff₀ hn).mp h1
    push_cast at h2
    nlinarith
  · rw [if_neg hq]
    have h1 : v / n ≤ ⌈v / n⌉ := Int.le_ceil _
    have h2 : v ≤ (⌈v / n⌉ : ℚ) * n := (div_le_iff₀ hn).mp h1
    nlinarith

theorem satCastU64_le (z : Int) (n : Nat) (h : z ≤ (n : Int)) : satCastU64 z ≤ n := by
  unfold satCastU64
  by_cases hz : z < 0
  · rw [if_pos hz]; exact Nat.zero_le n
  · rw [if_neg hz]
    exact le_trans (Nat.min_le_left _ _) (Int.toNat_le.mpr h)

theorem f64CalcMod_le (v : ℚ) (n : Nat) : f64CalcMod v n ≤ n := by
  unfold f64CalcMod
  by_cases hn : (n : ℚ) = 0
  · rw [if_pos hn]; exact Nat.zero_le n
  · rw [if_neg hn]
    have hn2 : 0 < (n : ℚ) := lt_of_le_of_ne (by positivity) (Ne.symm hn)
    refine satCastU64_le _ n ?_
    unfold roundHalfAway
    by_cases hr : 0 ≤ fmodTrunc v n
    · rw [if_pos hr]
      have h1 : fmodTrunc v n < n := fmodTrunc_lt v n hn2
      have h2 : ⌊fmodTrunc v n + 1 / 2⌋ < (n : Int) + 1 := by
        rw [Int.floor_lt]
        push_cast
        linarith
      omega
    · rw [if_neg hr]
      have h2 : ⌈fmodTrunc v n - 1 / 2⌉ ≤ (0 : Int) := by
        rw [Int.ceil_le]
        push_cast
        linarith
      have h3 : (0 : Int) ≤ n := by positivity
      omega

/-- C1 counterexample: the claim "calc returns Some(k) with 0 <= k < n for
every value and every n > 0 under both algorithms" is false at concrete
inputs.  (1) The signed calculator at v = -1, n = 2 under Mod returns
`2^64 - 1` (the `as u64` bit reinterpretation of the negative remainder),
which is not below 2.  (2) The float calculator at v = 1.5, n = 2 under Mod
rounds up to the boundary: it returns 2, not below 2.  (3) The unsigned
calculator under CRC32Mod panics (no `Some` at all) at n = 2^32, where
`try_into::<u32>().unwrap()` fails. -/
theorem calc_range_counterexample :
    i64Calc (-1) .Mod 2 = some (2 ^ 64 - 1) ∧ ¬(2 ^ 64 - 1 < 2) ∧
    f64CalcMod (3 / 2) 2 = 2 ∧ ¬((2 : Nat) < 2) ∧
    u64Calc 0 .CRC32Mod (2 ^ 32) = none := by
  refine ⟨by decide, by decide, ?_, by decide, by decide⟩
  unfold f64CalcMod satCastU64 roundHalfAway fmodTrunc ratTrunc
  norm_num
  rfl

/-- C1 amended: the bounded-range guarantee holds on the domains where the
code realises it.  For `u64` values: `Mod` with `n > 0` yields `Some k`,
`k < n`; `CRC32Mod` additionally needs `n < 2^32` (larger counts panic in
`try_into`).  For `i64` values: the same holds under `Mod` for non-negative
values and under `CRC32Mod` for every value (negative values under `Mod`
escape the range, see the counterexample).  For `f64` values (exact-rational
model, both algorithms): the result lies in `[0, n]` — the upper boundary
`n` is reachable by rounding, so the strict bound of the claim weakens
to `≤`. -/
theorem calc_range_amended :
    (∀ v n : Nat, 0 < n → ∃ k, u64Calc v .Mod n = some k ∧ k < n) ∧
    (∀ v n : Nat, 0 < n → n < 2 ^ 32 → ∃ k, u64Calc v .CRC32Mod n = some k ∧ k < n) ∧
    (∀ v n : Int, 0 ≤ v → 0 < n → ∃ k, i64Calc v .Mod n = some k ∧ k < n.toNat) ∧
    (∀ v n : Int, 0 < n → n < 2 ^ 32 → ∃ k, i64Calc v .CRC32Mod n = some k ∧ k < n.toNat) ∧
    (∀ (v : ℚ) (n : Nat), 0 < n → f64CalcMod v n ≤ n) ∧
    (∀ (bits : ℚ → List Nat) (v : ℚ) (n : Nat) (algo : ShardingAlgorithmName),
       0 < n → f64Calc bits v algo (n : ℚ) ≤ n) := by
  refine ⟨?_, ?_, ?_, ?_, ?_, ?_⟩
  · intro v n hn
    refine ⟨v % 2 ^ 64 % n, ?_, Nat.mod_lt _ hn⟩
    unfold u64Calc
    rw [if_neg (Nat.pos_iff_ne_zero.mp hn)]
  · intro v n hn hlt
    refine ⟨crc32 (u64BeBytes v) % n, ?_, Nat.mod_lt _ hn⟩
    unfold u64Calc
    dsimp only
    rw [if_neg (by omega : ¬2 ^ 32 ≤ n), if_neg (by omega : ¬n = 0)]
  · intro v n hv hn
    refine ⟨i64AsU64 (Int.tmod v n), ?_, ?_⟩
    · unfold i64Calc
      rw [if_neg (by omega)]
    · have h1 : 0 ≤ Int.tmod v n := Int.tmod_nonneg n hv
      have h2 : Int.tmod v n < n := Int.tmod_lt_of_pos v hn
      unfold i64AsU64
      have h3 : Int.tmod v n % (2 ^ 64) < n := by
        by_cases hr : Int.tmod v n < 2 ^ 64
        · rw [Int.emod_eq_of_lt h1 hr]; exact h2
        · have h4 := Int.emod_lt_of_pos (Int.tmod v n) (show (0 : ℤ) < 2 ^ 64 by norm_num)
          omega
      have h5 : 0 ≤ Int.tmod v n % (2 ^ 64) :=
        Int.emod_nonneg _ (by norm_num)
      omega
  · intro v n hn hlt
    refine ⟨crc32 (u64BeBytes (i64AsU64 v)) % n.toNat, ?_, Nat.mod_lt _ (by omega)⟩
    unfold i64Calc
    dsimp only
    rw [if_neg (not_or.mpr ⟨by omega, by omega⟩), if_neg (by omega : ¬n = 0)]
  · intro v n _; exact f64CalcMod_le v n
  · intro bits v n algo _
    cases algo with
    | Mod => exact f64CalcMod_le v n
    | CRC32Mod => exact f64CalcMod_le _ n

theorem calc_range_amended_witness :
    (∃ k, u64Calc 7 .Mod 3 = some k ∧ k < 3) ∧
    (∃ k, u64Calc 7 .CRC32Mod 5 = some k ∧ k < 5) ∧
    (∃ k, i64Calc 7 .Mod 3 = some k ∧ k < (3 : Int).toNat) ∧
    (∃ k, i64Calc (-7) .CRC32Mod 5 = some k ∧ k < (5 : Int).toNat) ∧
    f64CalcMod (1 / 2) 2 ≤ 2 ∧
    f64Calc f64bitsDummy (1 / 2) .CRC32Mod ((2 : Nat) : ℚ) ≤ 2 :=
  ⟨calc_range_amended.1 7 3 (by decide),
   calc_range_amended.2.1 7 5 (by decide) (by decide),
   calc_range_amended.2.2.1 7 3 (by decide) (by decide),
   calc_range_amended.2.2.2.1 (-7) 5 (by decide) (by decide),
   calc_range_amended.2.2.2.2.1 (1 / 2) 2 (by decide),
   calc_range_amended.2.2.2.2.2 f64bitsDummy (1 / 2) 2 .CRC32Mod (by decide)⟩

/-- C3 counterexample: with shard count 0 the calculator panics (division by
zero inside `wrapping_rem`, `RunRes.panicked`) — it does not fail with the
`CalcMod` error the claim promises. -/
theorem calc_zero_counterexample :
    parse_where f64bitsDummy (.BinaryExpr "idx" (.Num "1")) .Mod 0 1 "idx" = .panicked ∧
    parse_where f64bitsDummy (.BinaryExpr "idx" (.Num "1")) .Mod 0 1 "idx" ≠
      .err .CalcModError := by
  refine ⟨by rfl, by decide⟩

/-- C3 amended: a literal that does not parse under its declared type
surfaces as a `ParseInt` / `ParseFloat` error; a shard count of zero is a
panic for the integer calculators (no `CalcMod` error), while the float
`Mod` calculator returns 0 there (`NaN as u64`); and `parse_where` can never
produce the `CalcMod` error at all. -/
theorem parse_where_amended :
    (∀ (bits : ℚ → List Nat) (left s : String) (algo : ShardingAlgorithmName)
       (cnt qid : Nat) (col : String), stripTicks left = col → parseU64 s = none →
       parse_where bits (.BinaryExpr left (.Num s)) algo cnt qid col = .err .ParseIntError) ∧
    (∀ (bits : ℚ → List Nat) (left s : String) (algo : ShardingAlgorithmName)
       (cnt qid : Nat) (col : String), stripTicks left = col → parseI64 s = none →
       parse_where bits (.BinaryExpr left (.SignedNum s)) algo cnt qid col =
         .err .ParseIntError) ∧
    (∀ (bits : ℚ → List Nat) (left s : String) (algo : ShardingAlgorithmName)
       (cnt qid : Nat) (col : String), stripTicks left = col → parseF64Q s = none →
       parse_where bits (.BinaryExpr left (.FloatNum s)) algo cnt qid col =
         .err .ParseFloatError) ∧
    (∀ v : Nat, u64Calc v .Mod 0 = none) ∧
    (∀ v : Int, i64Calc v .Mod 0 = none) ∧
    (∀ v : ℚ, f64CalcMod v 0 = 0) ∧
    (∀ (bits : ℚ → List Nat) (meta : WhereMeta) (algo : ShardingAlgorithmName)
       (cnt qid : Nat) (col : String),
       parse_where bits meta algo cnt qid col ≠ .err .CalcModError) := by
  refine ⟨?_, ?_, ?_, ?_, ?_, ?_, ?_⟩
  · intro bits left s algo cnt qid col hcol hps
    unfold parse_where
    dsimp only
    rw [if_neg (by simp [hcol]), hps]
  · intro bits left s algo cnt qid col hcol hps
    unfold parse_where
    dsimp only
    rw [if_neg (by simp [hcol]), hps]
  · intro bits left s algo cnt qid col hcol hps
    unfold parse_where
    dsimp only
    rw [if_neg (by simp [hcol]), hps]
  · intro v; rfl
  · intro v; rfl
  · intro v; rfl
  · intro bits meta algo cnt qid col
    cases meta with
    | BinaryExpr left right =>
      unfold parse_where
      dsimp only
      by_cases hl : stripTicks left ≠ col
      · rw [if_pos hl]; simp
      · rw [if_neg hl]
        cases right with
        | Num val =>
          dsimp only
          cases h1 : parseU64 val with
          | none => simp
          | some v =>
            dsimp only
            cases h2 : u64Calc v algo cnt with
            | none => simp
            | some num => simp
        | SignedNum val =>
          dsimp only
          cases h1 : parseI64 val with
          | none => simp
          | some v =>
            dsimp only
            cases h2 : i64Calc v algo (u64AsI64 cnt) with
            | none => simp
            | some num => simp
        | FloatNum val =>
          dsimp only
          cases h1 : parseF64Q val with
          | none => simp
          | some v => simp
        | Other => dsimp only; simp

theorem parse_where_amended_witness :
    parse_where f64bitsDummy (.BinaryExpr "idx" (.Num "abc")) .Mod 4 1 "idx" =
      .err .ParseIntError ∧
    parse_where f64bitsDummy (.BinaryExpr "idx" (.SignedNum "--1")) .Mod 4 1 "idx" =
      .err .ParseIntError ∧
    parse_where f64bitsDummy (.BinaryExpr "idx" (.FloatNum "1.2.3")) .Mod 4 1 "idx" =
      .err .ParseFloatError ∧
    u64Calc 9 .Mod 0 = none ∧ i64Calc (-9) .Mod 0 = none ∧ f64CalcMod (7 / 2) 0 = 0 ∧
    parse_where f64bitsDummy (.BinaryExpr "idx" (.Num "3")) .Mod 4 1 "idx" ≠
      .err .CalcModError :=
  ⟨parse_where_amended.1 f64bitsDummy "idx" "abc" .Mod 4 1 "idx" rfl rfl,
   parse_where_amended.2.1 f64bitsDummy "idx" "--1" .Mod 4 1 "idx" rfl rfl,
   parse_where_amended.2.2.1 f64bitsDummy "idx" "1.2.3" .Mod 4 1 "idx" rfl rfl,
   parse_where_amended.2.2.2.1 9,
   parse_where_amended.2.2.2.2.1 (-9),
   parse_where_amended.2.2.2.2.2.1 (7 / 2),
   parse_where_amended.2.2.2.2.2.2 f64bitsDummy (.BinaryExpr "idx" (.Num "3")) .Mod 4 1 "idx"⟩

/-- C2: at a matched rule with a non-empty WHERE set none of whose predicates
mentions the sharding column, `database_strategy` indexes `wheres[0]` on the
empty filtered list and panics — the rewrite does not downgrade to the
broadcast plan as the claim states.  The second conjunct shows the same
metadata under the table strategy (which re-checks emptiness) taking the
claimed broadcast downgrade: `Ok` with the 4-shard fan-out. -/
theorem database_strategy_empty_wheres_panics :
    rewrite dbCtx f64bitsDummy inputNoShardPred = .panicked ∧
    (match rewrite tblCtx f64bitsDummy inputNoShardPred with
     | .ok outs => outs.length = 4
     | _ => False) := by
  exact ⟨rfl, rfl⟩

/-- C5: `find_table_rule` shares one endpoints iterator across all datanode
searches.  With datanodes `[ds0, ds1]`, endpoints `[ds0 -> db0, ds1 -> db1]`
and default database `db1`, the failed search for `ds0` exhausts the
iterator, so the matching endpoint of `ds1` is never seen: the code produces
no candidate (`some []`), while the spec's independent-search rule
(`find_table_rule_spec`, and the claim) makes the reference a candidate. -/
theorem find_table_rule_iterator_eval :
    find_table_rule [dbRule] [epDs0, epDs1] none false (some "db1") c5Tables = some [] ∧
    find_table_rule_spec [dbRule] [epDs0, epDs1] none false (some "db1") c5Tables =
      [(1, dbRule, ⟨⟨0, 6⟩, none, "tshard"⟩)] := by
  exact ⟨rfl, rfl⟩
